import Mathlib

/-!
# Genotype dosage plugin (`plugins/dosage.c`)

A shallow embedding of the dosage plugin: the three dosage methods
(`calc_dosage_PL`, `calc_dosage_GL`, `calc_dosage_GT`), the registry built by
`init`, and the per-record dispatcher `process`.

Conventions of the embedding.

* The C globals (`in_hdr`, `pl_type`, `gl_type`, `buf`, `handlers`) are the
  fields of `State`, passed explicitly.
* `buf` is a sequence of 32-bit cells (`Word`, a bit pattern); `(int32_t*) buf`
  reads a cell through `toInt32`, `(float*) buf` hands the bit pattern to the
  arithmetic.
* Floating-point arithmetic and `exp` belong to the C runtime, not to the
  plugin; they are the parameter `FloatOps F`. The facts of IEEE arithmetic a
  statement rests on are the hypotheses `SmallExact` and `RangeLaws`. Examples
  are evaluated in `milli` (fixed point in thousandths) and in `milli_ext`
  (the same with infinities and NaN).
* The htslib accessors are the parameter `Accessor`. The instance `htslib`
  follows the return codes documented in `htslib/vcf.h` (a request whose type
  differs from the declared one is refused); the instance `untyped` decodes
  without that check.
* Text written with `printf("\t%.1f", x)` is recorded as the value `x`.
* A load outside `buf` or a store outside `vals[3]` is undefined behaviour in
  C; the embedding returns `none` there.
-/

set_option autoImplicit false

namespace Dosage

/-! ## Runtime parameters -/

/-- One 32-bit cell of the decode buffer, as a bit pattern. -/
abbrev Word := Nat

/-- The value of a cell read through `int32_t*` (two-complement decoding). -/
def toInt32 (w : Word) : Int :=
  if w % 4294967296 < 2147483648 then (w % 4294967296 : Nat) else ((w % 4294967296 : Nat) : Int) - 4294967296

/-- Floating-point operations used by the plugin; `F` is the carrier of C
`float`/`double` values. -/
structure FloatOps (F : Type) where
  /-- The literal `0`. -/
  zero : F
  /-- The literal `1`. -/
  one : F
  /-- The literal `2`. -/
  two : F
  /-- The literal `-1`. -/
  negOne : F
  /-- The literal `-0.1`. -/
  negTenth : F
  /-- Conversion of an `int32_t` value. -/
  ofInt : Int → F
  /-- The `float` with the given bit pattern. -/
  ofBits : Word → F
  /-- Operator `+`. -/
  add : F → F → F
  /-- Operator `*`. -/
  mul : F → F → F
  /-- Operator `/`. -/
  div : F → F → F
  /-- Function `exp` of `math.h`. -/
  exp : F → F
  /-- Comparison `x == 0`. -/
  isZero : F → Bool

/-! ## htslib constants (`htslib/vcf.h`) -/

def BCF_HT_FLAG : Int := 0
def BCF_HT_INT : Int := 1
def BCF_HT_REAL : Int := 2
def BCF_HT_STR : Int := 3

def bcf_int32_missing : Int := -2147483648
def bcf_int32_vector_end : Int := -2147483647
/-- Bit pattern `0x7F800001`. -/
def bcf_float_missing : Word := 2139095041
/-- Bit pattern `0x7F800002`. -/
def bcf_float_vector_end : Word := 2139095042
def bcf_gt_missing : Int := 0

def bcf_float_is_missing (w : Word) : Bool := w == bcf_float_missing
def bcf_float_is_vector_end (w : Word) : Bool := w == bcf_float_vector_end

/-- Macro `bcf_gt_allele(val)`, that is `((val)>>1)-1`. -/
def bcf_gt_allele (val : Int) : Int := (val >>> 1) - 1

/-- Macro `bcf_gt_unphased(idx)`, that is `((idx)+1)<<1`. -/
def bcf_gt_unphased (idx : Nat) : Word := (idx + 1) * 2

/-- Macro `bcf_gt_phased(idx)`, that is `(((idx)+1)<<1|1)`. -/
def bcf_gt_phased (idx : Nat) : Word := (idx + 1) * 2 + 1

/-! ## Header, record, accessor -/

/-- The part of `bcf_hdr_t` the plugin looks at. -/
structure Hdr where
  /-- FORMAT declarations: tag and its `BCF_HT_*` type. -/
  fmt : List (String × Int)
  /-- Sample names, in header order. -/
  samples : List String

/-- Combination `bcf_hdr_id2int` / `bcf_hdr_idinfo_exists` / `bcf_hdr_id2type`:
the declared type of a FORMAT tag, when it is declared. -/
def Hdr.fmt_type (h : Hdr) (tag : String) : Option Int := h.fmt.lookup tag

/-- The part of `bcf1_t` the plugin looks at. -/
structure Rec where
  /-- Result of `bcf_seqname`. -/
  chrom : String
  pos : Int
  n_allele : Nat
  /-- Field `d.allele`. -/
  allele : List String
  n_sample : Nat
  /-- FORMAT fields carried by this record: tag and all values, sample after
  sample. -/
  fields : List (String × List Word)

/-- The two htslib calls made by the dosage methods. Each takes the current
`buf` and gives the return value together with the new `buf`. -/
structure Accessor where
  get_format_values : Hdr → Rec → String → Int → List Word → Int × List Word
  get_genotypes : Hdr → Rec → List Word → Int × List Word

/-- The buffer after a successful decode: the values come first, what was
beyond them stays (the buffer only grows). -/
def store (vals buf : List Word) : List Word := vals ++ buf.drop vals.length

/-- Function `bcf_get_format_values` as documented in `htslib/vcf.h`: `-1` when
the tag is not declared in the header, `-2` when the declared type is not the
requested one, `-3` when the record does not carry the tag, otherwise the
number of values written. -/
def bcf_get_format_values (hdr : Hdr) (rec : Rec) (tag : String) (type : Int)
    (buf : List Word) : Int × List Word :=
  match hdr.fmt_type tag with
  | none => (-1, buf)
  | some t =>
    if t ≠ type then (-2, buf)
    else match rec.fields.lookup tag with
      | none => (-3, buf)
      | some vals => (vals.length, store vals buf)

/-- Macro `bcf_get_genotypes`: the GT field is declared as a string in the
header and decoded as `int32_t`. -/
def bcf_get_genotypes (hdr : Hdr) (rec : Rec) (buf : List Word) : Int × List Word :=
  match hdr.fmt_type "GT" with
  | none => (-1, buf)
  | some t =>
    if t ≠ BCF_HT_STR then (-2, buf)
    else match rec.fields.lookup "GT" with
      | none => (-3, buf)
      | some vals => (vals.length, store vals buf)

/-- The accessor of htslib. -/
def htslib : Accessor := ⟨bcf_get_format_values, bcf_get_genotypes⟩

/-- An accessor that decodes whatever the record carries without comparing the
requested type with the header. -/
def untyped : Accessor :=
  ⟨fun _ rec tag _ buf =>
      match rec.fields.lookup tag with
      | none => (-3, buf)
      | some vals => (vals.length, store vals buf),
   fun _ rec buf =>
      match rec.fields.lookup "GT" with
      | none => (-3, buf)
      | some vals => (vals.length, store vals buf)⟩

/-! ## Plugin state -/

/-- Type `dosage_f`: the three functions a handler slot can point to. -/
inductive Handler where
  | PL
  | GL
  | GT
  deriving DecidableEq, Repr

/-- The globals of `dosage.c`. -/
structure State where
  in_hdr : Hdr
  pl_type : Int
  gl_type : Int
  buf : List Word
  handlers : List Handler

/-- The globals as initialised by their declarations. -/
def State.initial : State := ⟨⟨[], []⟩, 0, 0, [], []⟩

/-! ## The likelihood methods -/

/-- The local array `float vals[3]`. -/
structure Vals (F : Type) where
  v0 : F
  v1 : F
  v2 : F

/-- Assignment `vals[j] = x`; `none` when `j` is outside the array. -/
def Vals.set {F : Type} (v : Vals F) (j : Nat) (x : F) : Option (Vals F) :=
  match j with
  | 0 => some { v with v0 := x }
  | 1 => some { v with v1 := x }
  | 2 => some { v with v2 := x }
  | _ => none

/-- The loop `for (j=0; j<nret; j++)` of `BRANCH`, entered at index `j` with
`k = nret - j` iterations left; `ptr` is the buffer from the sample's first
value on. -/
def fill_vals {F : Type} (is_stop : Word → Bool) (tr : Word → F) (ptr : List Word) :
    Nat → Nat → Vals F → Option (Vals F)
  | _, 0, v => some v
  | j, k + 1, v =>
    match ptr[j]? with
    | none => none
    | some w =>
      if is_stop w then some v
      else
        match v.set j (tr w) with
        | none => none
        | some v1 => fill_vals is_stop tr ptr (j + 1) k v1

/-- The value printed for one sample:
`sum==0 ? -1 : (vals[1] + 2*vals[2]) / sum` with `sum = vals[0] + vals[1] + vals[2]`. -/
def dosage_of_vals {F : Type} (A : FloatOps F) (v : Vals F) : F :=
  if A.isZero (A.add (A.add v.v0 v.v1) v.v2) then A.negOne
  else A.div (A.add v.v1 (A.mul A.two v.v2)) (A.add (A.add v.v0 v.v1) v.v2)

/-- The loop `for (i=0; i<rec->n_sample; i++)`, entered at sample `i` with `k`
samples left; `body i` is what the loop body prints for sample `i`. -/
def for_samples {F : Type} (body : Nat → Option F) : Nat → Nat → Option (List F)
  | _, 0 => some []
  | i, k + 1 =>
    match body i with
    | none => none
    | some x =>
      match for_samples body (i + 1) k with
      | none => none
      | some xs => some (x :: xs)

/-- Macro `BRANCH(type_t,is_missing,is_vector_end)`: `tr` is the right-hand side
of the assignment to `vals[j]` as a function of the cell `ptr[j]`. After
sample `i` the pointer has advanced by `i*nret` cells. -/
def BRANCH {F : Type} (A : FloatOps F) (is_missing is_vector_end : Word → Bool)
    (tr : Word → F) (buf : List Word) (n_sample nret : Nat) : Option (List F) :=
  for_samples
    (fun i =>
      (fill_vals (fun w => is_missing w || is_vector_end w) tr (buf.drop (i * nret)) 0 nret
        ⟨A.zero, A.zero, A.zero⟩).map (dosage_of_vals A))
    0 n_sample

/-- Test `ptr[j]==bcf_int32_missing` on an `int32_t` cell. -/
def int32_is_missing (w : Word) : Bool := toInt32 w == bcf_int32_missing

/-- Test `ptr[j]==bcf_int32_vector_end` on an `int32_t` cell. -/
def int32_is_vector_end (w : Word) : Bool := toInt32 w == bcf_int32_vector_end

/-- What a dosage method leaves behind: its return value, the buffer, and the
values it printed. -/
structure MethodRes (F : Type) where
  ret : Int
  buf : List Word
  out : List F

/-- Function `calc_dosage_PL`. The division `nret /= rec->n_sample` is undefined
for `n_sample = 0`. -/
def calc_dosage_PL {F : Type} (A : FloatOps F) (acc : Accessor) (st : State) (rec : Rec) :
    Option (MethodRes F) :=
  let r := acc.get_format_values st.in_hdr rec "PL" st.pl_type st.buf
  if r.1 < 0 then some ⟨-1, r.2, []⟩
  else if rec.n_sample = 0 then none
  else
    let nret := r.1.toNat / rec.n_sample
    if st.pl_type = BCF_HT_INT then
      (BRANCH A int32_is_missing int32_is_vector_end
        (fun w => A.exp (A.mul A.negTenth (A.ofInt (toInt32 w)))) r.2 rec.n_sample nret).map
        (fun out => ⟨0, r.2, out⟩)
    else if st.pl_type = BCF_HT_REAL then
      (BRANCH A bcf_float_is_missing bcf_float_is_vector_end
        (fun w => A.exp (A.mul A.negTenth (A.ofBits w))) r.2 rec.n_sample nret).map
        (fun out => ⟨0, r.2, out⟩)
    else some ⟨0, r.2, []⟩

/-- Function `calc_dosage_GL`. Both the requested type and the `switch` use
`pl_type`, as in the source. -/
def calc_dosage_GL {F : Type} (A : FloatOps F) (acc : Accessor) (st : State) (rec : Rec) :
    Option (MethodRes F) :=
  let r := acc.get_format_values st.in_hdr rec "GL" st.pl_type st.buf
  if r.1 < 0 then some ⟨-1, r.2, []⟩
  else if rec.n_sample = 0 then none
  else
    let nret := r.1.toNat / rec.n_sample
    if st.pl_type = BCF_HT_INT then
      (BRANCH A int32_is_missing int32_is_vector_end
        (fun w => A.exp (A.ofInt (toInt32 w))) r.2 rec.n_sample nret).map
        (fun out => ⟨0, r.2, out⟩)
    else if st.pl_type = BCF_HT_REAL then
      (BRANCH A bcf_float_is_missing bcf_float_is_vector_end
        (fun w => A.exp (A.ofBits w)) r.2 rec.n_sample nret).map
        (fun out => ⟨0, r.2, out⟩)
    else some ⟨0, r.2, []⟩

/-! ## The genotype method -/

/-- The stop test of `calc_dosage_GT`:
`ptr[j]==bcf_int32_missing || ptr[j]==bcf_int32_vector_end || ptr[j]==bcf_gt_missing`. -/
def gt_is_stop (w : Word) : Bool :=
  toInt32 w == bcf_int32_missing || toInt32 w == bcf_int32_vector_end
    || toInt32 w == bcf_gt_missing

/-- The loop `for (j=0; j<nret; j++)` of `calc_dosage_GT`, entered at index `j`
with `k = nret - j` iterations left and running total `dsg`; gives the final
`j` and `dsg`. -/
def gt_loop {F : Type} (A : FloatOps F) (ptr : List Word) : Nat → Nat → F → Option (Nat × F)
  | j, 0, dsg => some (j, dsg)
  | j, k + 1, dsg =>
    match ptr[j]? with
    | none => none
    | some w =>
      if gt_is_stop w then some (j, dsg)
      else gt_loop A ptr (j + 1) k (if bcf_gt_allele (toInt32 w) ≠ 0 then A.add dsg A.one else dsg)

/-- The body of the sample loop of `calc_dosage_GT`: the value printed,
`j>0 ? dsg : -1`. -/
def gt_sample {F : Type} (A : FloatOps F) (ptr : List Word) (nret : Nat) : Option F :=
  (gt_loop A ptr 0 nret A.zero).map (fun r => if r.1 > 0 then r.2 else A.negOne)

/-- Function `calc_dosage_GT`. -/
def calc_dosage_GT {F : Type} (A : FloatOps F) (acc : Accessor) (st : State) (rec : Rec) :
    Option (MethodRes F) :=
  let r := acc.get_genotypes st.in_hdr rec st.buf
  if r.1 < 0 then some ⟨-1, r.2, []⟩
  else if rec.n_sample = 0 then none
  else
    let nret := r.1.toNat / rec.n_sample
    (for_samples (fun i => gt_sample A (r.2.drop (i * nret)) nret) 0 rec.n_sample).map
      (fun out => ⟨0, r.2, out⟩)

/-- The call `handlers[i](rec)`. -/
def Handler.call {F : Type} (A : FloatOps F) (acc : Accessor) (h : Handler) (st : State)
    (rec : Rec) : Option (MethodRes F) :=
  match h with
  | .PL => calc_dosage_PL A acc st rec
  | .GL => calc_dosage_GL A acc st rec
  | .GT => calc_dosage_GT A acc st rec

/-! ## Registry: `init` -/

/-- The two messages `init` writes to `stderr`:
`Expected numeric type of FORMAT/<tag>` and `No handler for tag "<tag>"`. -/
inductive Msg where
  | expected_numeric (tag : String)
  | no_handler (tag : String)
  deriving DecidableEq, Repr

/-- Modelled from the spec: `config_get_list` (declared in `config.h`, not part
of the plugin source) turns the option string into the ordered list of
requested tag names; without options the list is PL, GL, GT. -/
def config_get_list (opts : Option (List String)) : List String :=
  match opts with
  | some tags => tags
  | none => ["PL", "GL", "GT"]

/-- The loop `for (i=0; i<ntags; i++)` of `init` over the tags still to look
at. The message is `some` when the loop left through `return -1`. -/
def init_loop : List String → State → State × Option Msg
  | [], st => (st, none)
  | t :: ts, st =>
    if t = "PL" then
      match st.in_hdr.fmt_type "PL" with
      | some ty =>
        if ty ≠ BCF_HT_INT ∧ ty ≠ BCF_HT_REAL then
          ({ st with pl_type := ty }, some (Msg.expected_numeric "PL"))
        else init_loop ts { st with pl_type := ty, handlers := st.handlers ++ [Handler.PL] }
      | none => init_loop ts st
    else if t = "GL" then
      match st.in_hdr.fmt_type "GL" with
      | some ty =>
        if ty ≠ BCF_HT_INT ∧ ty ≠ BCF_HT_REAL then
          ({ st with gl_type := ty }, some (Msg.expected_numeric "GL"))
        else init_loop ts { st with gl_type := ty, handlers := st.handlers ++ [Handler.GL] }
      | none => init_loop ts st
    else if t = "GT" then
      init_loop ts { st with handlers := st.handlers ++ [Handler.GT] }
    else (st, some (Msg.no_handler t))

/-- The header line printed at the end of `init`. -/
def header_line (hdr : Hdr) : String :=
  "#[1]CHROM\t[2]POS\t[3]REF\t[4]ALT"
    ++ String.join (hdr.samples.enum.map (fun p => "\t[" ++ toString (p.1 + 5) ++ "]" ++ p.2))
    ++ "\n"

/-- What `init` leaves behind: return value, globals, and what went to
`stderr` and `stdout`. -/
structure InitRes where
  ret : Int
  st : State
  stderr : List Msg
  stdout : List String

/-- Function `init`, called on the globals `st`. -/
def init (st : State) (opts : Option (List String)) (hdr : Hdr) : InitRes :=
  match init_loop (config_get_list opts) { st with in_hdr := hdr } with
  | (st1, some m) => ⟨-1, st1, [m], []⟩
  | (st1, none) => ⟨1, st1, [], [header_line hdr]⟩

/-! ## Dispatcher: `process` -/

/-- The outcome of the loop over `handlers`. -/
structure LoopRes (F : Type) where
  /-- Whether the loop left through `break`, i.e. `i != nhandlers` after it. -/
  found : Bool
  buf : List Word
  /-- Values printed by the handlers that were called. -/
  out : List F
  /-- The handlers that were called, in call order. -/
  called : List Handler

/-- The loop `for (i=0; i<nhandlers; i++)` of `process` over the handlers still
to try. -/
def run_handlers {F : Type} (A : FloatOps F) (acc : Accessor) (rec : Rec) :
    List Handler → State → Option (LoopRes F)
  | [], st => some ⟨false, st.buf, [], []⟩
  | h :: hs, st =>
    match h.call A acc st rec with
    | none => none
    | some r =>
      if r.ret = 0 then some ⟨true, r.buf, r.out, [h]⟩
      else
        match run_handlers A acc rec hs { st with buf := r.buf } with
        | none => none
        | some l => some ⟨l.found, l.buf, r.out ++ l.out, h :: l.called⟩

/-- One output line of `process`. The literal texts `\t0.0` and `\t-1.0` are
recorded as the values `0` and `-1`. -/
structure Row (F : Type) where
  chrom : String
  pos : Int
  ref : String
  alt : String
  dosages : List F

/-- What `process` leaves behind. -/
structure ProcRes (F : Type) where
  ret : Int
  st : State
  row : Row F
  /-- The dosage methods that were called, in call order. -/
  called : List Handler

/-- Function `process`, called on the globals `st`. -/
def process {F : Type} (A : FloatOps F) (acc : Accessor) (st : State) (rec : Rec) :
    Option (ProcRes F) :=
  if rec.n_allele = 1 then
    some ⟨1, st,
      ⟨rec.chrom, rec.pos + 1, rec.allele.getD 0 "", ".", List.replicate rec.n_sample A.zero⟩, []⟩
  else
    match run_handlers A acc rec st.handlers st with
    | none => none
    | some l =>
      some ⟨1, { st with buf := l.buf },
        ⟨rec.chrom, rec.pos + 1, rec.allele.getD 0 "",
          if rec.n_allele > 1 then rec.allele.getD 1 "" else ".",
          l.out ++ (if l.found then [] else List.replicate rec.n_sample A.negOne)⟩,
        l.called⟩

/-! ## Facts of the arithmetic the exact-value statements rest on -/

/-- The facts of IEEE arithmetic and of `exp` (C Annex F: `exp(±0)` is `1`)
used when a statement names an exact dosage such as `1.0`. -/
structure SmallExact {F : Type} (A : FloatOps F) : Prop where
  add_zero_zero : A.add A.zero A.zero = A.zero
  add_zero_one : A.add A.zero A.one = A.one
  add_one_one : A.add A.one A.one = A.two
  add_one_two : A.add A.one A.two = A.add A.two A.one
  mul_two_one : A.mul A.two A.one = A.two
  div_self_three : A.div (A.add A.two A.one) (A.add A.two A.one) = A.one
  isZero_zero : A.isZero A.zero = true
  isZero_three : A.isZero (A.add A.two A.one) = false
  exp_int_zero : A.exp (A.ofInt 0) = A.one
  exp_bits_zero : A.exp (A.ofBits 0) = A.one
  phred_int_zero : A.exp (A.mul A.negTenth (A.ofInt 0)) = A.one
  phred_bits_zero : A.exp (A.mul A.negTenth (A.ofBits 0)) = A.one

/-- The value in thousandths of the finite `float` with the given bit
pattern, rounded towards zero. -/
def milli_of_bits (w : Word) : Int :=
  let m : Int := ((if w / 8388608 % 256 = 0 then w % 8388608 * 2 else (8388608 + w % 8388608) * 2 ^ (w / 8388608 % 256)) * 1000 / 2 ^ 150 : Nat)
  if w / 2147483648 % 2 = 0 then m else -m

/-- A concrete arithmetic for evaluating examples: fixed point in thousandths,
`exp` by its Taylor polynomial of degree three. -/
def milli : FloatOps Int where
  zero := 0
  one := 1000
  two := 2000
  negOne := -1000
  negTenth := -100
  ofInt := fun n => 1000 * n
  ofBits := milli_of_bits
  add := fun a b => a + b
  mul := fun a b => a * b / 1000
  div := fun a b => a * 1000 / b
  exp := fun x => 1000 + x + x * x / 2000 + x * x * x / 6000000
  isZero := fun x => x == 0

/-! ## Notions used to state the properties -/

/-- The count the accessor reports to handler `h` when it is called with
header `hdr`, requested type `pl_type` and buffer `buf`. A negative count is
what makes the method fail outright. -/
def Handler.nret (acc : Accessor) (h : Handler) (hdr : Hdr) (pl_type : Int) (rec : Rec)
    (buf : List Word) : Int :=
  match h with
  | .PL => (acc.get_format_values hdr rec "PL" pl_type buf).1
  | .GL => (acc.get_format_values hdr rec "GL" pl_type buf).1
  | .GT => (acc.get_genotypes hdr rec buf).1

/-- The accessor call made by a likelihood handler (`tag` is `PL` or `GL`): both
request the type held in `pl_type`. -/
def fetch (acc : Accessor) (st : State) (rec : Rec) (tag : String) : Int × List Word :=
  acc.get_format_values st.in_hdr rec tag st.pl_type st.buf

/-- The FORMAT tag a handler asks the accessor for. -/
def Handler.tag : Handler → String
  | .PL => "PL"
  | .GL => "GL"
  | .GT => "GT"

/-- The values of sample `i` in a buffer holding `nret` values per sample. -/
def group (buf : List Word) (nret i : Nat) : List Word := (buf.drop (i * nret)).take nret

/-- The accumulation of `calc_dosage_GT` over the entries it walks through:
an entry whose `bcf_gt_allele` is non-zero adds one. -/
def running_total {F : Type} (A : FloatOps F) (entries : List Word) : F :=
  entries.foldl (fun dsg w => if bcf_gt_allele (toInt32 w) ≠ 0 then A.add dsg A.one else dsg)
    A.zero

/-- The Genotype-Call dosage of one sample as the specification words it: `-1`
when the group is empty or starts with a stop sentinel, otherwise the running
total over the entries before the first stop sentinel. -/
def gt_dosage_spec {F : Type} (A : FloatOps F) (grp : List Word) : F :=
  match grp with
  | [] => A.negOne
  | w :: _ =>
    if gt_is_stop w then A.negOne
    else running_total A (grp.takeWhile (fun x => !gt_is_stop x))

/-- The likelihood dosage of one sample as the specification words it: `L k` is
the transform of the value at position `k` when that position precedes the
first sentinel and `0` otherwise; the dosage is `(L1 + 2*L2)/(L0+L1+L2)` when
the sum is non-zero and `-1` otherwise. -/
def likelihood_dosage_spec {F : Type} (A : FloatOps F) (is_stop : Word → Bool) (tr : Word → F)
    (grp : List Word) : F :=
  let L : Nat → F := fun k =>
    match (grp.takeWhile (fun x => !is_stop x))[k]? with
    | some p => tr p
    | none => A.zero
  if A.isZero (A.add (A.add (L 0) (L 1)) (L 2)) then A.negOne
  else A.div (A.add (L 1) (A.mul A.two (L 2))) (A.add (A.add (L 0) (L 1)) (L 2))

/-- The stop test of `BRANCH` for `int32_t` storage. -/
def int32_is_stop (w : Word) : Bool := int32_is_missing w || int32_is_vector_end w

/-- The stop test of `BRANCH` for `float` storage. -/
def float_is_stop (w : Word) : Bool := bcf_float_is_missing w || bcf_float_is_vector_end w

/-- The Likelihood-Phred transform `exp(-0.1*p)` of an `int32_t` cell. -/
def phred_int {F : Type} (A : FloatOps F) (w : Word) : F :=
  A.exp (A.mul A.negTenth (A.ofInt (toInt32 w)))

/-- The Likelihood-Phred transform `exp(-0.1*p)` of a `float` cell. -/
def phred_real {F : Type} (A : FloatOps F) (w : Word) : F :=
  A.exp (A.mul A.negTenth (A.ofBits w))

/-- The Log-Likelihood transform `exp(raw)` of an `int32_t` cell. -/
def loglik_int {F : Type} (A : FloatOps F) (w : Word) : F := A.exp (A.ofInt (toInt32 w))

/-- The Log-Likelihood transform `exp(raw)` of a `float` cell. -/
def loglik_real {F : Type} (A : FloatOps F) (w : Word) : F := A.exp (A.ofBits w)

/-- The stop test of the `BRANCH` selected by the storage type `ty`. -/
def stop_of_type (ty : Int) : Word → Bool :=
  if ty = BCF_HT_INT then int32_is_stop else float_is_stop

/-- The Likelihood-Phred transform for the storage type `ty`. -/
def phred_of_type {F : Type} (A : FloatOps F) (ty : Int) : Word → F :=
  if ty = BCF_HT_INT then phred_int A else phred_real A

/-- The Log-Likelihood transform for the storage type `ty`. -/
def loglik_of_type {F : Type} (A : FloatOps F) (ty : Int) : Word → F :=
  if ty = BCF_HT_INT then loglik_int A else loglik_real A

/-- The per-value transform of a likelihood handler for the storage type `ty`:
`exp(raw)` for GL, `exp(-0.1*raw)` for PL. -/
def Handler.transform {F : Type} (A : FloatOps F) (h : Handler) (ty : Int) : Word → F :=
  match h with
  | .GL => loglik_of_type A ty
  | _ => phred_of_type A ty

/-- The header declares PL with the type held in `pl_type`, which is Integer or
Float. -/
def pl_bound (st : State) : Prop :=
  st.in_hdr.fmt_type "PL" = some st.pl_type
    ∧ (st.pl_type = BCF_HT_INT ∨ st.pl_type = BCF_HT_REAL)

/-- Whether `init` has a branch for the tag name. -/
def known_tag (t : String) : Bool := t == "PL" || t == "GL" || t == "GT"

/-- Whether the tag passes the type test of `init`: GT is not tested, another
tag passes when it is undeclared in the header or declared Integer or Float. -/
def numeric_ok (hdr : Hdr) (t : String) : Bool :=
  if t = "GT" then true
  else
    match hdr.fmt_type t with
    | none => true
    | some ty => ty == BCF_HT_INT || ty == BCF_HT_REAL

/-- The registry as the specification words it: the requested list, in order,
without the PL and GL entries whose tag the header does not declare. -/
def registry_spec (hdr : Hdr) (tags : List String) : List Handler :=
  tags.filterMap (fun t =>
    if t = "PL" then (if (hdr.fmt_type "PL").isSome then some Handler.PL else none)
    else if t = "GL" then (if (hdr.fmt_type "GL").isSome then some Handler.GL else none)
    else if t = "GT" then some Handler.GT
    else none)

/-- The `(count, buffer)` pair the accessor hands to handler `h`. -/
def Handler.result (acc : Accessor) (h : Handler) (st : State) (rec : Rec) : Int × List Word :=
  match h with
  | .PL => fetch acc st rec "PL"
  | .GL => fetch acc st rec "GL"
  | .GT => acc.get_genotypes st.in_hdr rec st.buf

/-- The buffer protocol of `bcf_get_format_values`: for a given header, record,
tag and type the call either fails whatever the buffer holds, or decodes the
same values whatever the buffer holds and leaves them at its start. -/
def Accessor.Clean (acc : Accessor) : Prop :=
  (∀ hdr rec tag ty,
      (∀ buf, (acc.get_format_values hdr rec tag ty buf).1 < 0)
        ∨ ∃ vals, ∀ buf,
            acc.get_format_values hdr rec tag ty buf = ((vals.length : Int), store vals buf))
    ∧ (∀ hdr rec,
      (∀ buf, (acc.get_genotypes hdr rec buf).1 < 0)
        ∨ ∃ vals, ∀ buf, acc.get_genotypes hdr rec buf = ((vals.length : Int), store vals buf))

/-- The number of entries before the first stop sentinel whose called allele
is a non-reference allele (allele index at least 1). -/
def nonref_count (grp : List Word) : Nat :=
  ((grp.takeWhile (fun x => !gt_is_stop x)).filter
    (fun w => decide (1 ≤ bcf_gt_allele (toInt32 w)))).length

/-- The likelihood `L k` of a sample: the transform of the value at position
`k` when that position precedes the first sentinel, `0` otherwise. -/
def likelihood_L {F : Type} (A : FloatOps F) (is_stop : Word → Bool) (tr : Word → F)
    (grp : List Word) (k : Nat) : F :=
  match (grp.takeWhile (fun x => !is_stop x))[k]? with
  | some p => tr p
  | none => A.zero

/-- The sum `L0 + L1 + L2` of a sample. -/
def likelihood_sum {F : Type} (A : FloatOps F) (is_stop : Word → Bool) (tr : Word → F)
    (grp : List Word) : F :=
  A.add (A.add (likelihood_L A is_stop tr grp 0) (likelihood_L A is_stop tr grp 1))
    (likelihood_L A is_stop tr grp 2)

/-- The quotient `(L1 + 2*L2)/(L0 + L1 + L2)` of a sample. -/
def likelihood_quotient {F : Type} (A : FloatOps F) (is_stop : Word → Bool) (tr : Word → F)
    (grp : List Word) : F :=
  A.div (A.add (likelihood_L A is_stop tr grp 1) (A.mul A.two (likelihood_L A is_stop tr grp 2)))
    (likelihood_sum A is_stop tr grp)

/-! ## Order facts of the arithmetic and an arithmetic with special values -/

/-- The order facts of IEEE arithmetic the range statement rests on. `fin x`
says that `x` is a finite number (neither an infinity nor a NaN) and `val x`
is its value counted in units of the smallest representable step. Sums of
non-negative numbers do not fall below their terms, doubling is exact, rounded
sums respect a bound by a double, and a quotient of `n` by `s` with
`0 ≤ n ≤ 2*s` and `s` non-zero is a finite number between 0 and 2; each fact is
asserted only where the results are finite. -/
structure RangeLaws {F : Type} (A : FloatOps F) (val : F → Int) (fin : F → Bool) : Prop where
  fin_zero : fin A.zero = true
  val_zero : val A.zero = 0
  fin_one : fin A.one = true
  fin_two : fin A.two = true
  val_one : 0 ≤ val A.one ∧ val A.one ≤ val A.two
  isZero_iff : ∀ x, fin x = true → (A.isZero x = true ↔ val x = 0)
  add_ge_right : ∀ a b, fin a = true → fin b = true → fin (A.add a b) = true → 0 ≤ val a →
    val b ≤ val (A.add a b)
  mul_two : ∀ a, fin a = true → fin (A.mul A.two a) = true → val (A.mul A.two a) = 2 * val a
  add_le_double : ∀ a b c d, fin a = true → fin b = true → fin c = true → fin d = true →
    fin (A.add a b) = true → fin (A.add c d) = true → val a + val b ≤ 2 * (val c + val d) →
    val (A.add a b) ≤ 2 * val (A.add c d)
  div_range : ∀ n s, fin n = true → fin s = true → 0 ≤ val n → val n ≤ 2 * val s → val s ≠ 0 →
    fin (A.div n s) = true ∧ 0 ≤ val (A.div n s) ∧ val (A.div n s) ≤ val A.two

/-- A dosage value is the sentinel `-1.0` or a finite number in `[0, 2]`. -/
def in_range {F : Type} (A : FloatOps F) (val : F → Int) (fin : F → Bool) (x : F) : Prop :=
  x = A.negOne ∨ (fin x = true ∧ 0 ≤ val x ∧ val x ≤ val A.two)

/-- The computation of one likelihood dosage stays among finite numbers: the
three likelihoods are finite and non-negative and the sums `L0+L1`,
`L0+L1+L2`, `2*L2` and `L1+2*L2` are finite. -/
def finite3 {F : Type} (A : FloatOps F) (val : F → Int) (fin : F → Bool)
    (is_stop : Word → Bool) (tr : Word → F) (grp : List Word) : Prop :=
  fin (likelihood_L A is_stop tr grp 0) = true ∧ fin (likelihood_L A is_stop tr grp 1) = true
    ∧ fin (likelihood_L A is_stop tr grp 2) = true
    ∧ 0 ≤ val (likelihood_L A is_stop tr grp 0) ∧ 0 ≤ val (likelihood_L A is_stop tr grp 1)
    ∧ 0 ≤ val (likelihood_L A is_stop tr grp 2)
    ∧ fin (A.add (likelihood_L A is_stop tr grp 0) (likelihood_L A is_stop tr grp 1)) = true
    ∧ fin (likelihood_sum A is_stop tr grp) = true
    ∧ fin (A.mul A.two (likelihood_L A is_stop tr grp 2)) = true
    ∧ fin (A.add (likelihood_L A is_stop tr grp 1)
        (A.mul A.two (likelihood_L A is_stop tr grp 2))) = true

/-- The record is diploid for the registry of `st`, and its likelihood
computations stay finite: whenever the accessor hands a registered method its
values, there is at least one sample, the buffer holds the values, a genotype
group has at most 2 entries, a likelihood group has at most 3 values and
satisfies `finite3`. -/
def diploid_ok {F : Type} (A : FloatOps F) (val : F → Int) (fin : F → Bool) (acc : Accessor)
    (st : State) (rec : Rec) : Prop :=
  ∀ h ∈ st.handlers, 0 ≤ (h.result acc st rec).1 →
    0 < rec.n_sample
      ∧ (h.result acc st rec).1.toNat ≤ (h.result acc st rec).2.length
      ∧ (h = Handler.GT → (h.result acc st rec).1.toNat / rec.n_sample ≤ 2)
      ∧ (h ≠ Handler.GT →
          (h.result acc st rec).1.toNat / rec.n_sample ≤ 3
            ∧ ∀ k, k < rec.n_sample →
                finite3 A val fin (stop_of_type st.pl_type) (h.transform A st.pl_type)
                  (group (h.result acc st rec).2
                    ((h.result acc st rec).1.toNat / rec.n_sample) k))

/-- Numbers in thousandths together with the IEEE special values. -/
inductive Ext where
  | fin (m : Int)
  | inf (neg : Bool)
  | nan
  deriving DecidableEq, Repr

/-- Addition: exact on numbers, infinities absorb, `inf + -inf` is NaN. -/
def Ext.add : Ext → Ext → Ext
  | .fin a, .fin b => .fin (a + b)
  | .nan, _ => .nan
  | _, .nan => .nan
  | .inf s, .inf t => if s = t then .inf s else .nan
  | .inf s, .fin _ => .inf s
  | .fin _, .inf s => .inf s

/-- Multiplication: `0 * inf` is NaN. -/
def Ext.mul : Ext → Ext → Ext
  | .fin a, .fin b => .fin (a * b / 1000)
  | .nan, _ => .nan
  | _, .nan => .nan
  | .inf s, .inf t => .inf (s != t)
  | .inf s, .fin b => if b = 0 then .nan else .inf (s != decide (b < 0))
  | .fin a, .inf s => if a = 0 then .nan else .inf (s != decide (a < 0))

/-- Division: `0/0` and `inf/inf` are NaN, a number over an infinity is 0. -/
def Ext.div : Ext → Ext → Ext
  | .fin a, .fin b =>
    if b = 0 then (if a = 0 then .nan else .inf (decide (a < 0))) else .fin (a * 1000 / b)
  | .nan, _ => .nan
  | _, .nan => .nan
  | .inf _, .inf _ => .nan
  | .inf s, .fin b => .inf (s != decide (b < 0))
  | .fin _, .inf _ => .fin 0

/-- Function `exp` stored in a `float`: as in `milli` on numbers up to 88, the
largest argument whose exponential fits a `float`; infinite beyond. -/
def Ext.exp : Ext → Ext
  | .fin x => if 88000 < x then .inf false else .fin (1000 + x + x * x / 2000 + x * x * x / 6000000)
  | .inf false => .inf false
  | .inf true => .fin 0
  | .nan => .nan

/-- The `float` with the given bit pattern: exponent field 255 is an infinity
(zero fraction) or a NaN. -/
def Ext.ofBits (w : Word) : Ext :=
  if w / 8388608 % 256 = 255 then
    (if w % 8388608 = 0 then .inf (decide (w / 2147483648 % 2 = 1)) else .nan)
  else .fin (milli_of_bits w)

/-- The arithmetic `milli` extended with overflow to infinity and NaN. -/
def milli_ext : FloatOps Ext where
  zero := .fin 0
  one := .fin 1000
  two := .fin 2000
  negOne := .fin (-1000)
  negTenth := .fin (-100)
  ofInt := fun n => .fin (1000 * n)
  ofBits := Ext.ofBits
  add := Ext.add
  mul := Ext.mul
  div := Ext.div
  exp := Ext.exp
  isZero := fun x => x == .fin 0

/-- The value of a number of `Ext`, in thousandths. -/
def Ext.val : Ext → Int
  | .fin m => m
  | _ => 0

/-- Whether a value of `Ext` is a number. -/
def Ext.isFin : Ext → Bool
  | .fin _ => true
  | _ => false

/-! ## Example headers and records -/

/-- A header with the usual declarations: PL Integer, GL Float, GT String. -/
def hdr_std : Hdr :=
  ⟨[("PL", BCF_HT_INT), ("GL", BCF_HT_REAL), ("GT", BCF_HT_STR)], ["s1"]⟩

/-- A header declaring GL (Float) and GT but no PL. -/
def hdr_gl : Hdr := ⟨[("GL", BCF_HT_REAL), ("GT", BCF_HT_STR)], ["s1"]⟩

/-- A header declaring PL as a String. -/
def hdr_pl_str : Hdr := ⟨[("PL", BCF_HT_STR), ("GT", BCF_HT_STR)], ["s1"]⟩

/-- A biallelic record of one sample carrying GT `0/0` and GL `0,0,0`, no PL. -/
def rec_gl_gt : Rec := ⟨"1", 99, 2, ["A", "C"], 1, [("GT", [2, 2]), ("GL", [0, 0, 0])]⟩

/-- A biallelic record of one sample carrying GT `0/1` and a GL whose first
value is the `float` missing sentinel, no PL. -/
def rec_gl_miss : Rec :=
  ⟨"1", 99, 2, ["A", "C"], 1, [("GT", [2, 4]), ("GL", [2139095041, 0, 0])]⟩

/-- A header declaring PL and GL both as Float, and GT. -/
def hdr_ff : Hdr :=
  ⟨[("PL", BCF_HT_REAL), ("GL", BCF_HT_REAL), ("GT", BCF_HT_STR)], ["s1"]⟩

/-- A record of one sample carrying four GL values `0,0,0,0` and GT `0/1`. -/
def rec_gl4 : Rec :=
  ⟨"1", 99, 3, ["A", "C", "G"], 1, [("GT", [2, 4]), ("GL", [0, 0, 0, 0])]⟩

/-- A biallelic record of one sample with the genotype `0|.`: the reference
allele, then a phased missing allele (encoded 1). -/
def rec_gt_phased_missing : Rec := ⟨"1", 99, 2, ["A", "C"], 1, [("GT", [2, 1])]⟩

/-- A biallelic record of one sample with PL `.,0,0`: the first value missing,
two genuine values after it. -/
def rec_pl_first_missing : Rec :=
  ⟨"1", 99, 2, ["A", "C"], 1, [("PL", [2147483648, 0, 0])]⟩

/-- The globals after `init` with the default tags against the usual header. -/
def st_std : State := (init State.initial none hdr_std).st

/-- The same globals with eight cells of an earlier record left in `buf`. -/
def st_std_used : State := { st_std with buf := [9, 9, 9, 9, 9, 9, 9, 9] }

/-- A biallelic record of one sample with PL `0,0,-10000` (the last cell is
-10000 as an `int32_t`) and GT `0/1`. -/
def rec_pl_overflow : Rec :=
  ⟨"1", 99, 2, ["A", "C"], 1, [("GT", [2, 4]), ("PL", [0, 0, 4294957296])]⟩

/-- A biallelic record of one sample carrying no FORMAT field at all. -/
def rec_bare : Rec := ⟨"1", 99, 2, ["A", "C"], 1, []⟩

/-- A record with a single allele, one sample, PL `0,0,0`. -/
def rec_mono : Rec := ⟨"1", 99, 1, ["A"], 1, [("PL", [0, 0, 0])]⟩

/-- A triallelic record of one sample carrying six PL values and GT `1/2`. -/
def rec_pl6 : Rec :=
  ⟨"1", 99, 3, ["A", "C", "G"], 1, [("GT", [4, 6]), ("PL", [10, 0, 20, 30, 40, 50])]⟩

/-- A biallelic record of two samples: PL `0,0,0` for the first, all missing
for the second; GT `0/1` and `1/1`. -/
def rec_pl2 : Rec :=
  ⟨"1", 99, 2, ["A", "C"], 2,
    [("GT", [2, 4, 4, 4]), ("PL", [0, 0, 0, 2147483648, 2147483648, 2147483648])]⟩

end Dosage

/-! # Properties -/

namespace Dosage

variable {F : Type}

theorem for_samples_eq (body : Nat → Option F) (g : Nat → F) :
    ∀ (n s : Nat), (∀ i, i < n → body (s + i) = some (g (s + i))) →
      for_samples body s n = some ((List.range' s n).map g) := by
  intro n
  induction n with
  | zero => intro s _; rfl
  | succ n ih =>
    intro s h
    have h0 : body s = some (g s) := by simpa using h 0 (Nat.succ_pos n)
    have hrest : for_samples body (s + 1) n = some ((List.range' (s + 1) n).map g) := by
      apply ih
      intro i hi
      have := h (i + 1) (Nat.succ_lt_succ hi)
      simpa [Nat.add_assoc, Nat.add_comm 1 i] using this
    simp [for_samples, h0, hrest, List.range'_succ]

theorem for_samples_length (body : Nat → Option F) :
    ∀ (n s : Nat) (xs : List F), for_samples body s n = some xs → xs.length = n := by
  intro n
  induction n with
  | zero => intro s xs h; simp [for_samples] at h; simp [← h]
  | succ n ih =>
    intro s xs h
    simp only [for_samples] at h
    split at h
    · exact absurd h (by simp)
    · split at h
      · exact absurd h (by simp)
      · rename_i x _ ys hys
        have := ih (s + 1) ys hys
        simp at h
        simp [← h, this]

/-! ## Methods that fail outright -/

theorem call_of_nret_neg (A : FloatOps F) (acc : Accessor) (h : Handler) (st : State) (rec : Rec)
    (hneg : h.nret acc st.in_hdr st.pl_type rec st.buf < 0) :
    ∃ b, h.call A acc st rec = some ⟨-1, b, []⟩ := by
  cases h <;>
    simp only [Handler.nret] at hneg <;>
    simp [Handler.call, calc_dosage_PL, calc_dosage_GL, calc_dosage_GT, hneg]

theorem run_handlers_all_fail (A : FloatOps F) (acc : Accessor) (rec : Rec) :
    ∀ (hs : List Handler) (st : State),
      (∀ m ∈ hs, ∀ buf, m.nret acc st.in_hdr st.pl_type rec buf < 0) →
      ∃ b, run_handlers A acc rec hs st = some ⟨false, b, [], hs⟩ := by
  intro hs
  induction hs with
  | nil => intro st _; exact ⟨st.buf, rfl⟩
  | cons m ms ih =>
    intro st h
    obtain ⟨b, hb⟩ := call_of_nret_neg A acc m st rec (h m (List.mem_cons_self _ _) st.buf)
    obtain ⟨b2, hb2⟩ := ih { st with buf := b } (fun m2 hm2 buf => h m2 (List.mem_cons_of_mem _ hm2) buf)
    exact ⟨b2, by simp [run_handlers, hb, hb2]⟩

/-- C2. When the record has more than one allele and every registered method
fails outright (its accessor call reports a negative count), which includes
the empty registry, `process` emits exactly `n_sample` dosage values, each
`-1.0`, after having called every registered method. -/
theorem process_all_fail (A : FloatOps F) (acc : Accessor) (st : State) (rec : Rec)
    (hall : 1 < rec.n_allele)
    (hfail : ∀ m ∈ st.handlers, ∀ buf, m.nret acc st.in_hdr st.pl_type rec buf < 0) :
    ∃ r, process A acc st rec = some r
      ∧ r.row.dosages = List.replicate rec.n_sample A.negOne
      ∧ r.row.dosages.length = rec.n_sample
      ∧ r.called = st.handlers := by
  obtain ⟨b, hb⟩ := run_handlers_all_fail A acc rec st.handlers st hfail
  have h1 : rec.n_allele ≠ 1 := by omega
  simp [process, h1, hb]

/-- C2 on a concrete input: the usual header with the default tags and a
record carrying no FORMAT field. -/
theorem process_all_fail_witness :
    ∃ r, process milli htslib (init State.initial none hdr_std).st rec_bare = some r
      ∧ r.row.dosages = List.replicate rec_bare.n_sample milli.negOne
      ∧ r.row.dosages.length = rec_bare.n_sample
      ∧ r.called = (init State.initial none hdr_std).st.handlers :=
  process_all_fail milli htslib (init State.initial none hdr_std).st rec_bare (by decide)
    (by
      intro m _ buf
      cases m <;> simp [Handler.nret, htslib, bcf_get_format_values, bcf_get_genotypes,
        Hdr.fmt_type, init, init_loop, config_get_list, hdr_std, rec_bare, State.initial,
        List.lookup, BCF_HT_INT, BCF_HT_REAL, BCF_HT_STR])

/-- C3. For a record with exactly one allele, whatever the registry and the
fields of the record, `process` emits `0.0` for each of the `n_sample` samples,
calls no dosage method and leaves the globals untouched. -/
theorem process_monomorphic (A : FloatOps F) (acc : Accessor) (st : State) (rec : Rec)
    (h1 : rec.n_allele = 1) :
    ∃ r, process A acc st rec = some r
      ∧ r.row.dosages = List.replicate rec.n_sample A.zero
      ∧ r.row.dosages.length = rec.n_sample
      ∧ r.called = []
      ∧ r.st = st := by
  simp [process, h1]

/-- C3 on a concrete input: a single-allele record that carries PL. -/
theorem process_monomorphic_witness :
    ∃ r, process milli htslib (init State.initial none hdr_std).st rec_mono = some r
      ∧ r.row.dosages = List.replicate rec_mono.n_sample milli.zero
      ∧ r.row.dosages.length = rec_mono.n_sample
      ∧ r.called = []
      ∧ r.st = (init State.initial none hdr_std).st :=
  process_monomorphic milli htslib (init State.initial none hdr_std).st rec_mono rfl

/-! ## Registry resolution -/

theorem init_loop_known :
    ∀ (tags : List String) (st : State),
      (∀ t ∈ tags, t = "PL" ∨ t = "GL" ∨ t = "GT") →
      numeric_ok st.in_hdr "PL" = true → numeric_ok st.in_hdr "GL" = true →
      (init_loop tags st).2 = none
        ∧ (init_loop tags st).1.handlers = st.handlers ++ registry_spec st.in_hdr tags
        ∧ (init_loop tags st).1.in_hdr = st.in_hdr := by
  intro tags
  induction tags with
  | nil => intro st _ _ _; simp [init_loop, registry_spec]
  | cons t ts ih =>
    intro st hn hPL hGL
    have hts : ∀ u ∈ ts, u = "PL" ∨ u = "GL" ∨ u = "GT" := fun u hu => hn u (List.mem_cons_of_mem _ hu)
    rcases hn t (List.mem_cons_self _ _) with h | h | h
    · subst h
      cases hty : st.in_hdr.fmt_type "PL" with
      | none =>
        have := ih st hts hPL hGL
        simpa [init_loop, registry_spec, hty] using this
      | some ty =>
        have hnum : ¬ (ty ≠ BCF_HT_INT ∧ ty ≠ BCF_HT_REAL) := by
          simp [numeric_ok, hty] at hPL
          tauto
        have := ih { st with pl_type := ty, handlers := st.handlers ++ [Handler.PL] } hts hPL hGL
        simpa [init_loop, registry_spec, hty, hnum] using this
    · subst h
      cases hty : st.in_hdr.fmt_type "GL" with
      | none =>
        have := ih st hts hPL hGL
        simpa [init_loop, registry_spec, hty] using this
      | some ty =>
        have hnum : ¬ (ty ≠ BCF_HT_INT ∧ ty ≠ BCF_HT_REAL) := by
          simp [numeric_ok, hty] at hGL
          tauto
        have := ih { st with gl_type := ty, handlers := st.handlers ++ [Handler.GL] } hts hPL hGL
        simpa [init_loop, registry_spec, hty, hnum] using this
    · subst h
      have := ih { st with handlers := st.handlers ++ [Handler.GT] } hts hPL hGL
      simpa [init_loop, registry_spec] using this

/-- C9. For a requested list made of the names PL, GL and GT, with PL and GL
declared Integer or Float whenever the header declares them, `init` on the
initial globals returns 1 and the registry is the requested list, in the same
order, without the PL and GL entries whose tag the header does not declare; GT
entries are always kept, whether or not the header declares GT. -/
theorem init_registry (hdr : Hdr) (tags : List String)
    (hnames : ∀ t ∈ tags, t = "PL" ∨ t = "GL" ∨ t = "GT")
    (hPL : ∀ ty, hdr.fmt_type "PL" = some ty → ty = BCF_HT_INT ∨ ty = BCF_HT_REAL)
    (hGL : ∀ ty, hdr.fmt_type "GL" = some ty → ty = BCF_HT_INT ∨ ty = BCF_HT_REAL) :
    (init State.initial (some tags) hdr).ret = 1
      ∧ (init State.initial (some tags) hdr).st.handlers = registry_spec hdr tags
      ∧ (init State.initial (some tags) hdr).stderr = []
      ∧ (∀ pre post, tags = pre ++ "GT" :: post →
          registry_spec hdr tags = registry_spec hdr pre ++ Handler.GT :: registry_spec hdr post) := by
  have hP : numeric_ok hdr "PL" = true := by
    cases h : hdr.fmt_type "PL" with
    | none => simp [numeric_ok, h]
    | some ty => rcases hPL ty h with h2 | h2 <;> simp [numeric_ok, h, h2]
  have hG : numeric_ok hdr "GL" = true := by
    cases h : hdr.fmt_type "GL" with
    | none => simp [numeric_ok, h]
    | some ty => rcases hGL ty h with h2 | h2 <;> simp [numeric_ok, h, h2]
  obtain ⟨h1, h2, _⟩ := init_loop_known tags { State.initial with in_hdr := hdr } hnames hP hG
  have hsplit : init_loop tags { State.initial with in_hdr := hdr }
      = ((init_loop tags { State.initial with in_hdr := hdr }).1, none) := by
    rw [← h1]
  refine ⟨?_, ?_, ?_, ?_⟩
  · simp only [init, config_get_list]; rw [hsplit]
  · simp only [init, config_get_list]; rw [hsplit]; simpa [State.initial] using h2
  · simp only [init, config_get_list]; rw [hsplit]
  · intro pre post h
    subst h
    simp [registry_spec, List.filterMap_append]

/-- C9 on a concrete input: the request `GT,PL` against the usual header. -/
theorem init_registry_witness :
    (init State.initial (some ["GT", "PL"]) hdr_std).ret = 1
      ∧ (init State.initial (some ["GT", "PL"]) hdr_std).st.handlers
          = registry_spec hdr_std ["GT", "PL"]
      ∧ (init State.initial (some ["GT", "PL"]) hdr_std).stderr = []
      ∧ (∀ pre post, ["GT", "PL"] = pre ++ "GT" :: post →
          registry_spec hdr_std ["GT", "PL"]
            = registry_spec hdr_std pre ++ Handler.GT :: registry_spec hdr_std post) :=
  init_registry hdr_std ["GT", "PL"] (by decide)
    (by intro ty h; simp [hdr_std, Hdr.fmt_type, List.lookup] at h; exact Or.inl h.symm)
    (by
      intro ty h
      have : ty = BCF_HT_REAL := by
        have h2 : hdr_std.fmt_type "GL" = some BCF_HT_REAL := by decide
        rw [h2] at h; exact (Option.some.inj h).symm
      exact Or.inr this)

/-- Requesting `GT,PL` against the usual header registers GT then PL. -/
theorem init_GT_PL_example :
    (init State.initial (some ["GT", "PL"]) hdr_std).st.handlers = [Handler.GT, Handler.PL] := by
  decide

theorem init_loop_in_hdr :
    ∀ (tags : List String) (st : State), (init_loop tags st).1.in_hdr = st.in_hdr := by
  intro tags
  induction tags with
  | nil => intro st; rfl
  | cons t ts ih =>
    intro st
    simp only [init_loop]
    split
    · split
      · split
        · rfl
        · rw [ih]
      · rw [ih]
    · split
      · split
        · split
          · rfl
          · rw [ih]
        · rw [ih]
      · split
        · rw [ih]
        · rfl

theorem init_loop_unknown (x : String) (post : List String) (hx : known_tag x = false) :
    ∀ (pre : List String) (st : State), (∀ t ∈ pre, known_tag t = true) →
      (∃ m, (init_loop (pre ++ x :: post) st).2 = some m)
        ∧ ((∀ t ∈ pre, numeric_ok st.in_hdr t = true) →
            (init_loop (pre ++ x :: post) st).2 = some (Msg.no_handler x))
        ∧ ((∃ t ∈ pre, numeric_ok st.in_hdr t = false) →
            ∃ u ∈ pre, numeric_ok st.in_hdr u = false
              ∧ (init_loop (pre ++ x :: post) st).2 = some (Msg.expected_numeric u)) := by
  have hx3 : x ≠ "PL" ∧ x ≠ "GL" ∧ x ≠ "GT" := by
    simp [known_tag] at hx
    exact ⟨hx.1.1, hx.1.2, hx.2⟩
  intro pre
  induction pre with
  | nil =>
    intro st _
    simp [init_loop, hx3.1, hx3.2.1, hx3.2.2]
  | cons t ts ih =>
    intro st hk
    have hts : ∀ u ∈ ts, known_tag u = true := fun u hu => hk u (List.mem_cons_of_mem _ hu)
    have ht : t = "PL" ∨ t = "GL" ∨ t = "GT" := by
      have := hk t (List.mem_cons_self _ _)
      simpa [known_tag, or_assoc] using this
    have hGTok : numeric_ok st.in_hdr "GT" = true := by simp [numeric_ok]
    rcases ht with h | h | h
    · subst h
      cases hty : st.in_hdr.fmt_type "PL" with
      | none =>
        have hok : numeric_ok st.in_hdr "PL" = true := by simp [numeric_ok, hty]
        have := ih st hts
        simpa [init_loop, hty, hok] using this
      | some ty =>
        by_cases hnum : ty ≠ BCF_HT_INT ∧ ty ≠ BCF_HT_REAL
        · have hbad : numeric_ok st.in_hdr "PL" = false := by
            simp [numeric_ok, hty, hnum.1, hnum.2]
          simp [init_loop, hty, hnum, hbad]
        · have hok : numeric_ok st.in_hdr "PL" = true := by
            simp [numeric_ok, hty]; tauto
          have := ih { st with pl_type := ty, handlers := st.handlers ++ [Handler.PL] } hts
          simpa [init_loop, hty, hnum, hok] using this
    · subst h
      cases hty : st.in_hdr.fmt_type "GL" with
      | none =>
        have hok : numeric_ok st.in_hdr "GL" = true := by simp [numeric_ok, hty]
        have := ih st hts
        simpa [init_loop, hty, hok] using this
      | some ty =>
        by_cases hnum : ty ≠ BCF_HT_INT ∧ ty ≠ BCF_HT_REAL
        · have hbad : numeric_ok st.in_hdr "GL" = false := by
            simp [numeric_ok, hty, hnum.1, hnum.2]
          simp [init_loop, hty, hnum, hbad]
        · have hok : numeric_ok st.in_hdr "GL" = true := by
            simp [numeric_ok, hty]; tauto
          have := ih { st with gl_type := ty, handlers := st.handlers ++ [Handler.GL] } hts
          simpa [init_loop, hty, hnum, hok] using this
    · subst h
      have := ih { st with handlers := st.handlers ++ [Handler.GT] } hts
      simpa [init_loop, hGTok] using this

theorem init_of_loop_msg (st : State) (tags : List String) (hdr : Hdr) (m : Msg)
    (h : (init_loop tags { st with in_hdr := hdr }).2 = some m) :
    init st (some tags) hdr = ⟨-1, (init_loop tags { st with in_hdr := hdr }).1, [m], []⟩ := by
  have hsplit : init_loop tags { st with in_hdr := hdr }
      = ((init_loop tags { st with in_hdr := hdr }).1, some m) := by
    rw [← h]
  simp only [init, config_get_list]
  rw [hsplit]

/-- C10, the claim as stated fails: with PL declared as a String, the request
`PL,XX` makes `init` return -1 with the message about the type of FORMAT/PL,
not with the unknown-tag message for `XX`. -/
theorem init_unknown_tag_after_bad_type :
    (init State.initial (some ["PL", "XX"]) hdr_pl_str).ret = -1
      ∧ (init State.initial (some ["PL", "XX"]) hdr_pl_str).stderr = [Msg.expected_numeric "PL"]
      ∧ (init State.initial (some ["PL", "XX"]) hdr_pl_str).stderr ≠ [Msg.no_handler "XX"] := by
  decide

/-- C10, amended. When the requested list contains a name other than PL, GL
and GT (`x` being the first such name), `init` returns -1 and prints no header
line, for every header and every prior content of the globals. The message is
the unknown-tag message for `x` when every PL or GL requested before `x` is
undeclared or declared Integer or Float; otherwise it is the message about the
type of a PL or GL tag requested before `x`. -/
theorem init_unknown_tag (st : State) (hdr : Hdr) (pre post : List String) (x : String)
    (hpre : ∀ t ∈ pre, known_tag t = true) (hx : known_tag x = false) :
    (init st (some (pre ++ x :: post)) hdr).ret = -1
      ∧ (init st (some (pre ++ x :: post)) hdr).stdout = []
      ∧ ((∀ t ∈ pre, numeric_ok hdr t = true) →
          (init st (some (pre ++ x :: post)) hdr).stderr = [Msg.no_handler x])
      ∧ ((∃ t ∈ pre, numeric_ok hdr t = false) →
          ∃ u ∈ pre, numeric_ok hdr u = false
            ∧ (init st (some (pre ++ x :: post)) hdr).stderr = [Msg.expected_numeric u]) := by
  obtain ⟨⟨m, hm⟩, h2, h3⟩ := init_loop_unknown x post hx pre { st with in_hdr := hdr } hpre
  rw [init_of_loop_msg st _ hdr m hm]
  refine ⟨rfl, rfl, ?_, ?_⟩
  · intro hok
    have := h2 hok
    rw [hm] at this
    simp [Option.some.inj this]
  · intro hbad
    obtain ⟨u, hu, hub, hmsg⟩ := h3 hbad
    rw [hm] at hmsg
    exact ⟨u, hu, hub, by simp [Option.some.inj hmsg]⟩

/-- C10 (amended) on a concrete input: the request `GT,PL,XX,GL` against the usual
header. -/
theorem init_unknown_tag_witness :
    (init State.initial (some (["GT", "PL"] ++ "XX" :: ["GL"])) hdr_std).ret = -1
      ∧ (init State.initial (some (["GT", "PL"] ++ "XX" :: ["GL"])) hdr_std).stdout = []
      ∧ ((∀ t ∈ ["GT", "PL"], numeric_ok hdr_std t = true) →
          (init State.initial (some (["GT", "PL"] ++ "XX" :: ["GL"])) hdr_std).stderr
            = [Msg.no_handler "XX"])
      ∧ ((∃ t ∈ ["GT", "PL"], numeric_ok hdr_std t = false) →
          ∃ u ∈ ["GT", "PL"], numeric_ok hdr_std u = false
            ∧ (init State.initial (some (["GT", "PL"] ++ "XX" :: ["GL"])) hdr_std).stderr
              = [Msg.expected_numeric u]) :=
  init_unknown_tag State.initial hdr_std ["GT", "PL"] ["GL"] "XX" (by decide) (by decide)

/-! ## The inner loops -/

theorem fill_vals_spec (A : FloatOps F) (stop : Word → Bool) (tr : Word → F) (ptr : List Word)
    (nret : Nat) (hlen : nret ≤ ptr.length)
    (hpre : ((ptr.take nret).takeWhile (fun x => !stop x)).length ≤ 3) :
    (fill_vals stop tr ptr 0 nret ⟨A.zero, A.zero, A.zero⟩).map (dosage_of_vals A)
      = some (likelihood_dosage_spec A stop tr (ptr.take nret)) := by
  rcases nret with _ | _ | _ | _ | n
  · simp [fill_vals, likelihood_dosage_spec, dosage_of_vals]
  · rcases ptr with _ | ⟨a, r⟩
    · simp at hlen
    · by_cases ha : stop a = true <;>
        simp [fill_vals, Vals.set, likelihood_dosage_spec, dosage_of_vals, List.takeWhile, ha]
  · rcases ptr with _ | ⟨a, _ | ⟨b, r⟩⟩
    · simp at hlen
    · simp at hlen
    · by_cases ha : stop a = true <;> by_cases hb : stop b = true <;>
        simp [fill_vals, Vals.set, likelihood_dosage_spec, dosage_of_vals, List.takeWhile, ha, hb]
  · rcases ptr with _ | ⟨a, _ | ⟨b, _ | ⟨c, r⟩⟩⟩
    · simp at hlen
    · simp at hlen
    · simp at hlen
    · by_cases ha : stop a = true <;> by_cases hb : stop b = true <;>
        by_cases hc : stop c = true <;>
        simp [fill_vals, Vals.set, likelihood_dosage_spec, dosage_of_vals, List.takeWhile,
          ha, hb, hc]
  · rcases ptr with _ | ⟨a, _ | ⟨b, _ | ⟨c, _ | ⟨d, r⟩⟩⟩⟩
    · simp at hlen
    · simp at hlen
    · simp at hlen
    · simp at hlen
    · by_cases ha : stop a = true <;> by_cases hb : stop b = true <;>
        by_cases hc : stop c = true <;> by_cases hd : stop d = true <;>
        simp [fill_vals, Vals.set, likelihood_dosage_spec, dosage_of_vals, List.takeWhile,
          ha, hb, hc, hd] at hpre ⊢

theorem gt_loop_eq (A : FloatOps F) (ptr : List Word) :
    ∀ (k j : Nat) (dsg : F), j + k ≤ ptr.length →
      gt_loop A ptr j k dsg
        = some (j + (((ptr.drop j).take k).takeWhile (fun x => !gt_is_stop x)).length,
            (((ptr.drop j).take k).takeWhile (fun x => !gt_is_stop x)).foldl
              (fun d w => if bcf_gt_allele (toInt32 w) ≠ 0 then A.add d A.one else d) dsg) := by
  intro k
  induction k with
  | zero => intro j dsg _; simp [gt_loop]
  | succ k ih =>
    intro j dsg h
    have hj : j < ptr.length := by omega
    have hdrop : ptr.drop j = ptr[j] :: ptr.drop (j + 1) := List.drop_eq_getElem_cons hj
    have hget : ptr[j]? = some ptr[j] := List.getElem?_eq_getElem hj
    rw [hdrop]
    by_cases hs : gt_is_stop ptr[j] = true
    · simp [gt_loop, hget, hs, List.takeWhile]
    · have := ih (j + 1) (if bcf_gt_allele (toInt32 ptr[j]) ≠ 0 then A.add dsg A.one else dsg)
        (by omega)
      simp only [gt_loop, hget, hs, this, List.take_succ_cons, List.takeWhile_cons,
        Bool.not_eq_true, Bool.not_false, Bool.false_eq_true, if_false, if_true,
        List.length_cons, List.foldl_cons]
      simp [hs]
      omega

theorem gt_sample_spec (A : FloatOps F) (ptr : List Word) (nret : Nat) (h : nret ≤ ptr.length) :
    gt_sample A ptr nret = some (gt_dosage_spec A (ptr.take nret)) := by
  have := gt_loop_eq A ptr nret 0 A.zero (by omega)
  simp only [gt_sample, this, List.drop_zero, Option.map_some']
  cases hg : ptr.take nret with
  | nil => simp [gt_dosage_spec]
  | cons w ws =>
    by_cases hs : gt_is_stop w = true <;>
      simp [gt_dosage_spec, running_total, List.takeWhile, hs]

theorem group_length (buf : List Word) (n nret i : Nat) (hbuf : n * nret ≤ buf.length)
    (hi : i < n) : nret ≤ (buf.drop (i * nret)).length := by
  have h1 : (i + 1) * nret ≤ n * nret := Nat.mul_le_mul_right _ hi
  have h2 : (i + 1) * nret = i * nret + nret := by ring
  simp only [List.length_drop]
  omega

theorem BRANCH_spec (A : FloatOps F) (is_missing is_vector_end : Word → Bool) (tr : Word → F)
    (buf : List Word) (n nret : Nat) (hbuf : n * nret ≤ buf.length)
    (hpre : ∀ i, i < n →
      ((group buf nret i).takeWhile (fun x => !(is_missing x || is_vector_end x))).length ≤ 3) :
    BRANCH A is_missing is_vector_end tr buf n nret
      = some ((List.range n).map (fun i =>
          likelihood_dosage_spec A (fun w => is_missing w || is_vector_end w) tr
            (group buf nret i))) := by
  rw [List.range_eq_range']
  apply for_samples_eq
  intro i hi
  simp only [Nat.zero_add]
  exact fill_vals_spec A _ tr _ nret (group_length buf n nret i hbuf hi) (hpre i hi)

/-! ## The methods on a record the accessor decodes -/

theorem stop_of_type_int : stop_of_type BCF_HT_INT
    = (fun w => int32_is_missing w || int32_is_vector_end w) := by
  funext w; simp [stop_of_type, int32_is_stop]

theorem stop_of_type_real : stop_of_type BCF_HT_REAL
    = (fun w => bcf_float_is_missing w || bcf_float_is_vector_end w) := by
  funext w; simp [stop_of_type, float_is_stop, BCF_HT_REAL, BCF_HT_INT]

theorem mul_div_le_length (t : Int) (n : Nat) (len : Nat) (h : t.toNat ≤ len) :
    n * (t.toNat / n) ≤ len :=
  Nat.le_trans (Nat.mul_div_le _ _) h

theorem calc_dosage_GT_eq (A : FloatOps F) (acc : Accessor) (st : State) (rec : Rec)
    (hn : 0 < rec.n_sample)
    (hret : 0 ≤ (acc.get_genotypes st.in_hdr rec st.buf).1)
    (hbuf : (acc.get_genotypes st.in_hdr rec st.buf).1.toNat
      ≤ (acc.get_genotypes st.in_hdr rec st.buf).2.length) :
    calc_dosage_GT A acc st rec
      = some ⟨0, (acc.get_genotypes st.in_hdr rec st.buf).2,
          (List.range rec.n_sample).map (fun i =>
            gt_dosage_spec A (group (acc.get_genotypes st.in_hdr rec st.buf).2
              ((acc.get_genotypes st.in_hdr rec st.buf).1.toNat / rec.n_sample) i))⟩ := by
  have h1 : ¬ (acc.get_genotypes st.in_hdr rec st.buf).1 < 0 := by omega
  have h2 : rec.n_sample ≠ 0 := by omega
  have hb := mul_div_le_length _ rec.n_sample _ hbuf
  simp only [calc_dosage_GT, h1, h2, if_false]
  rw [List.range_eq_range', for_samples_eq _ (fun i =>
    gt_dosage_spec A (group (acc.get_genotypes st.in_hdr rec st.buf).2
      ((acc.get_genotypes st.in_hdr rec st.buf).1.toNat / rec.n_sample) i))]
  · rfl
  · intro i hi
    simp only [Nat.zero_add]
    exact gt_sample_spec A _ _ (group_length _ rec.n_sample _ i hb hi)

theorem calc_dosage_PL_eq (A : FloatOps F) (acc : Accessor) (st : State) (rec : Rec)
    (hn : 0 < rec.n_sample)
    (hty : st.pl_type = BCF_HT_INT ∨ st.pl_type = BCF_HT_REAL)
    (hret : 0 ≤ (fetch acc st rec "PL").1)
    (hbuf : (fetch acc st rec "PL").1.toNat ≤ (fetch acc st rec "PL").2.length)
    (hpre : ∀ i, i < rec.n_sample →
      ((group (fetch acc st rec "PL").2 ((fetch acc st rec "PL").1.toNat / rec.n_sample)
        i).takeWhile (fun x => !stop_of_type st.pl_type x)).length ≤ 3) :
    calc_dosage_PL A acc st rec
      = some ⟨0, (fetch acc st rec "PL").2,
          (List.range rec.n_sample).map (fun i =>
            likelihood_dosage_spec A (stop_of_type st.pl_type) (phred_of_type A st.pl_type)
              (group (fetch acc st rec "PL").2
                ((fetch acc st rec "PL").1.toNat / rec.n_sample) i))⟩ := by
  obtain ⟨hdr, ty, gl, buf, hs⟩ := st
  simp only [fetch] at hret hbuf hpre ⊢
  have h1 : ¬ (acc.get_format_values hdr rec "PL" ty buf).1 < 0 := by omega
  have h2 : rec.n_sample ≠ 0 := by omega
  have hb := mul_div_le_length _ rec.n_sample _ hbuf
  have hne : BCF_HT_REAL ≠ BCF_HT_INT := by decide
  rcases hty with h | h
  · simp only at h
    subst h
    simp only [stop_of_type_int] at hpre ⊢
    have := BRANCH_spec A int32_is_missing int32_is_vector_end
      (fun w => A.exp (A.mul A.negTenth (A.ofInt (toInt32 w)))) _ _ _ hb hpre
    simp only [calc_dosage_PL, h1, h2, if_false, if_true, this, Option.map_some']
    simp [phred_of_type, phred_int]
    intro a _
    rfl
  · simp only at h
    subst h
    simp only [stop_of_type_real] at hpre ⊢
    have := BRANCH_spec A bcf_float_is_missing bcf_float_is_vector_end
      (fun w => A.exp (A.mul A.negTenth (A.ofBits w))) _ _ _ hb hpre
    simp only [calc_dosage_PL, h1, h2, hne, if_false, if_true, this, Option.map_some']
    simp [phred_of_type, phred_real, hne]
    intro a _
    rfl

theorem calc_dosage_GL_eq (A : FloatOps F) (acc : Accessor) (st : State) (rec : Rec)
    (hn : 0 < rec.n_sample)
    (hty : st.pl_type = BCF_HT_INT ∨ st.pl_type = BCF_HT_REAL)
    (hret : 0 ≤ (fetch acc st rec "GL").1)
    (hbuf : (fetch acc st rec "GL").1.toNat ≤ (fetch acc st rec "GL").2.length)
    (hpre : ∀ i, i < rec.n_sample →
      ((group (fetch acc st rec "GL").2 ((fetch acc st rec "GL").1.toNat / rec.n_sample)
        i).takeWhile (fun x => !stop_of_type st.pl_type x)).length ≤ 3) :
    calc_dosage_GL A acc st rec
      = some ⟨0, (fetch acc st rec "GL").2,
          (List.range rec.n_sample).map (fun i =>
            likelihood_dosage_spec A (stop_of_type st.pl_type) (loglik_of_type A st.pl_type)
              (group (fetch acc st rec "GL").2
                ((fetch acc st rec "GL").1.toNat / rec.n_sample) i))⟩ := by
  obtain ⟨hdr, ty, gl, buf, hs⟩ := st
  simp only [fetch] at hret hbuf hpre ⊢
  have h1 : ¬ (acc.get_format_values hdr rec "GL" ty buf).1 < 0 := by omega
  have h2 : rec.n_sample ≠ 0 := by omega
  have hb := mul_div_le_length _ rec.n_sample _ hbuf
  have hne : BCF_HT_REAL ≠ BCF_HT_INT := by decide
  rcases hty with h | h
  · simp only at h
    subst h
    simp only [stop_of_type_int] at hpre ⊢
    have := BRANCH_spec A int32_is_missing int32_is_vector_end
      (fun w => A.exp (A.ofInt (toInt32 w))) _ _ _ hb hpre
    simp only [calc_dosage_GL, h1, h2, if_false, if_true, this, Option.map_some']
    simp [loglik_of_type, loglik_int]
    intro a _
    rfl
  · simp only at h
    subst h
    simp only [stop_of_type_real] at hpre ⊢
    have := BRANCH_spec A bcf_float_is_missing bcf_float_is_vector_end
      (fun w => A.exp (A.ofBits w)) _ _ _ hb hpre
    simp only [calc_dosage_GL, h1, h2, hne, if_false, if_true, this, Option.map_some']
    simp [loglik_of_type, loglik_real, hne]
    intro a _
    rfl

theorem takeWhile_group_le (stop : Word → Bool) (buf : List Word) (nret i : Nat)
    (h3 : nret ≤ 3) : ((group buf nret i).takeWhile (fun x => !stop x)).length ≤ 3 := by
  have h1 := (List.takeWhile_sublist (l := group buf nret i) (fun x => !stop x)).length_le
  have h2 : (group buf nret i).length ≤ nret := by
    simp only [group, List.length_take]
    exact Nat.min_le_left _ _
  omega

theorem getElem?_map_range {α : Type} (g : Nat → α) (n i : Nat) (hi : i < n) :
    ((List.range n).map g)[i]? = some (g i) := by
  simp [List.getElem?_map, List.getElem?_range hi]

theorem stop_of_type_zero (ty : Int) : stop_of_type ty 0 = false := by
  by_cases h : ty = BCF_HT_INT
  · simp only [stop_of_type, h, if_true]; decide
  · simp only [stop_of_type, h, if_false]; decide

theorem phred_of_type_zero (A : FloatOps F) (hA : SmallExact A) (ty : Int) :
    phred_of_type A ty 0 = A.one := by
  by_cases h : ty = BCF_HT_INT
  · simp only [phred_of_type, h, if_true, phred_int]
    exact hA.phred_int_zero
  · simp only [phred_of_type, h, if_false, phred_real]
    exact hA.phred_bits_zero

theorem likelihood_dosage_spec_ones (A : FloatOps F) (hA : SmallExact A) (stop : Word → Bool)
    (tr : Word → F) (hs : stop 0 = false) (ht : tr 0 = A.one) :
    likelihood_dosage_spec A stop tr [0, 0, 0] = A.one := by
  simp [likelihood_dosage_spec, List.takeWhile, hs, ht, hA.add_one_one, hA.mul_two_one,
    hA.add_one_two, hA.isZero_three, hA.div_self_three]

theorem likelihood_dosage_spec_first_stop (A : FloatOps F) (hA : SmallExact A)
    (stop : Word → Bool) (tr : Word → F) (grp : List Word) (w : Word)
    (hw : grp.head? = some w) (hs : stop w = true) :
    likelihood_dosage_spec A stop tr grp = A.negOne := by
  cases grp with
  | nil => simp at hw
  | cons a rest =>
    simp only [List.head?_cons, Option.some.injEq] at hw
    subst hw
    simp [likelihood_dosage_spec, List.takeWhile, hs, hA.add_zero_zero, hA.isZero_zero]

/-- C5. When the accessor hands `calc_dosage_GT` its values, the method returns 0
and prints, for every sample, `-1.0` if the group of the sample is empty or
starts with a stop sentinel (int32 missing, int32 vector-end, missing
genotype), and otherwise the running total over the entries before the first
stop sentinel. The encoded calls `0/0`, `0/1`, `1/1` give `0.0`, `1.0`, `2.0`,
and a group whose first entry is a stop sentinel gives `-1.0`. -/
theorem calc_dosage_GT_spec (A : FloatOps F) (acc : Accessor) (st : State) (rec : Rec)
    (hn : 0 < rec.n_sample)
    (hret : 0 ≤ (acc.get_genotypes st.in_hdr rec st.buf).1)
    (hbuf : (acc.get_genotypes st.in_hdr rec st.buf).1.toNat
      ≤ (acc.get_genotypes st.in_hdr rec st.buf).2.length) :
    calc_dosage_GT A acc st rec
        = some ⟨0, (acc.get_genotypes st.in_hdr rec st.buf).2,
            (List.range rec.n_sample).map (fun i =>
              gt_dosage_spec A (group (acc.get_genotypes st.in_hdr rec st.buf).2
                ((acc.get_genotypes st.in_hdr rec st.buf).1.toNat / rec.n_sample) i))⟩
      ∧ gt_sample A [bcf_gt_unphased 0, bcf_gt_unphased 0] 2 = some A.zero
      ∧ (SmallExact A →
          gt_sample A [bcf_gt_unphased 0, bcf_gt_unphased 1] 2 = some A.one
            ∧ gt_sample A [bcf_gt_unphased 1, bcf_gt_unphased 1] 2 = some A.two)
      ∧ (∀ w rest nret, gt_is_stop w = true → gt_sample A (w :: rest) nret = some A.negOne) := by
  refine ⟨calc_dosage_GT_eq A acc st rec hn hret hbuf, ?_, ?_, ?_⟩
  · have h2 : gt_is_stop 2 = false := by decide
    have ha : bcf_gt_allele (toInt32 2) = 0 := by decide
    simp [gt_sample, gt_loop, bcf_gt_unphased, h2, ha]
  · intro hA
    have h2 : gt_is_stop 2 = false := by decide
    have h4 : gt_is_stop 4 = false := by decide
    have ha : bcf_gt_allele (toInt32 2) = 0 := by decide
    have hb : bcf_gt_allele (toInt32 4) ≠ 0 := by decide
    constructor
    · simp [gt_sample, gt_loop, bcf_gt_unphased, h2, h4, ha, hb, hA.add_zero_one]
    · simp [gt_sample, gt_loop, bcf_gt_unphased, h4, hb, hA.add_zero_one, hA.add_one_one]
  · intro w rest nret hs
    cases nret with
    | zero => simp [gt_sample, gt_loop]
    | succ k => simp [gt_sample, gt_loop, hs]

/-- C5 on a concrete input: two samples with GT `0/1` and `1/1`. -/
theorem calc_dosage_GT_spec_witness :
    calc_dosage_GT milli htslib (init State.initial none hdr_std).st rec_pl2
        = some ⟨0, (htslib.get_genotypes (init State.initial none hdr_std).st.in_hdr rec_pl2
              (init State.initial none hdr_std).st.buf).2,
            (List.range rec_pl2.n_sample).map (fun i =>
              gt_dosage_spec milli
                (group (htslib.get_genotypes (init State.initial none hdr_std).st.in_hdr rec_pl2
                    (init State.initial none hdr_std).st.buf).2
                  ((htslib.get_genotypes (init State.initial none hdr_std).st.in_hdr rec_pl2
                    (init State.initial none hdr_std).st.buf).1.toNat / rec_pl2.n_sample) i))⟩
      ∧ gt_sample milli [bcf_gt_unphased 0, bcf_gt_unphased 0] 2 = some milli.zero
      ∧ (SmallExact milli →
          gt_sample milli [bcf_gt_unphased 0, bcf_gt_unphased 1] 2 = some milli.one
            ∧ gt_sample milli [bcf_gt_unphased 1, bcf_gt_unphased 1] 2 = some milli.two)
      ∧ (∀ w rest nret, gt_is_stop w = true →
          gt_sample milli (w :: rest) nret = some milli.negOne) :=
  calc_dosage_GT_spec milli htslib (init State.initial none hdr_std).st rec_pl2
    (by decide) (by decide) (by decide)

/-- The GT dosages of samples `0/1` and `1/1` evaluate to `1.0` and `2.0`. -/
theorem calc_dosage_GT_example :
    (calc_dosage_GT milli htslib (init State.initial none hdr_std).st rec_pl2).map
      (fun r => (r.ret, r.out)) = some (0, [milli.one, milli.two]) := by
  decide

/-- C6. When the accessor hands `calc_dosage_PL` at most three values per
sample, the method returns 0 and prints one value per sample: with `L0, L1,
L2` equal to `exp(-0.1*p)` for the values `p` before the first missing or
vector-end sentinel and to `0` from that sentinel on, the value is
`(L1 + 2*L2)/(L0+L1+L2)` when the sum is non-zero and `-1.0` otherwise. A
sample whose values are `0,0,0` gets exactly `1.0`, for `int32_t` and for
`float` storage. -/
theorem calc_dosage_PL_spec (A : FloatOps F) (acc : Accessor) (st : State) (rec : Rec)
    (hn : 0 < rec.n_sample)
    (hty : st.pl_type = BCF_HT_INT ∨ st.pl_type = BCF_HT_REAL)
    (hret : 0 ≤ (fetch acc st rec "PL").1)
    (hbuf : (fetch acc st rec "PL").1.toNat ≤ (fetch acc st rec "PL").2.length)
    (h3 : (fetch acc st rec "PL").1.toNat / rec.n_sample ≤ 3) :
    ∃ out, calc_dosage_PL A acc st rec = some ⟨0, (fetch acc st rec "PL").2, out⟩
      ∧ out.length = rec.n_sample
      ∧ ∀ i, i < rec.n_sample →
          out[i]? = some (likelihood_dosage_spec A (stop_of_type st.pl_type)
              (phred_of_type A st.pl_type)
              (group (fetch acc st rec "PL").2
                ((fetch acc st rec "PL").1.toNat / rec.n_sample) i))
          ∧ (SmallExact A →
              group (fetch acc st rec "PL").2
                ((fetch acc st rec "PL").1.toNat / rec.n_sample) i = [0, 0, 0] →
              out[i]? = some A.one) := by
  refine ⟨_, calc_dosage_PL_eq A acc st rec hn hty hret hbuf
    (fun i _ => takeWhile_group_le _ _ _ i h3), by simp, ?_⟩
  intro i hi
  refine ⟨getElem?_map_range _ _ i hi, ?_⟩
  intro hA hg
  rw [getElem?_map_range _ _ i hi, hg,
    likelihood_dosage_spec_ones A hA _ _ (stop_of_type_zero _) (phred_of_type_zero A hA _)]

/-- C6 on a concrete input: two samples, PL `0,0,0` and all missing. -/
theorem calc_dosage_PL_spec_witness :
    ∃ out, calc_dosage_PL milli htslib (init State.initial none hdr_std).st rec_pl2
        = some ⟨0, (fetch htslib (init State.initial none hdr_std).st rec_pl2 "PL").2, out⟩
      ∧ out.length = rec_pl2.n_sample
      ∧ ∀ i, i < rec_pl2.n_sample →
          out[i]? = some (likelihood_dosage_spec milli
              (stop_of_type (init State.initial none hdr_std).st.pl_type)
              (phred_of_type milli (init State.initial none hdr_std).st.pl_type)
              (group (fetch htslib (init State.initial none hdr_std).st rec_pl2 "PL").2
                ((fetch htslib (init State.initial none hdr_std).st rec_pl2 "PL").1.toNat
                  / rec_pl2.n_sample) i))
          ∧ (SmallExact milli →
              group (fetch htslib (init State.initial none hdr_std).st rec_pl2 "PL").2
                ((fetch htslib (init State.initial none hdr_std).st rec_pl2 "PL").1.toNat
                  / rec_pl2.n_sample) i = [0, 0, 0] →
              out[i]? = some milli.one) :=
  calc_dosage_PL_spec milli htslib (init State.initial none hdr_std).st rec_pl2
    (by decide) (by decide) (by decide) (by decide) (by decide)

/-- The PL dosages of a sample `0,0,0` and of an all-missing sample evaluate to
`1.0` and `-1.0`. -/
theorem calc_dosage_PL_example :
    (calc_dosage_PL milli htslib (init State.initial none hdr_std).st rec_pl2).map
      (fun r => (r.ret, r.out)) = some (0, [milli.one, milli.negOne]) := by
  decide

theorem likelihood_call_eq (A : FloatOps F) (acc : Accessor) (st : State) (rec : Rec)
    (h : Handler) (hh : h = Handler.PL ∨ h = Handler.GL)
    (hn : 0 < rec.n_sample)
    (hty : st.pl_type = BCF_HT_INT ∨ st.pl_type = BCF_HT_REAL)
    (hret : 0 ≤ (fetch acc st rec h.tag).1)
    (hbuf : (fetch acc st rec h.tag).1.toNat ≤ (fetch acc st rec h.tag).2.length)
    (hpre : ∀ k, k < rec.n_sample →
      ((group (fetch acc st rec h.tag).2 ((fetch acc st rec h.tag).1.toNat / rec.n_sample)
        k).takeWhile (fun x => !stop_of_type st.pl_type x)).length ≤ 3) :
    h.call A acc st rec
      = some ⟨0, (fetch acc st rec h.tag).2,
          (List.range rec.n_sample).map (fun k =>
            likelihood_dosage_spec A (stop_of_type st.pl_type) (h.transform A st.pl_type)
              (group (fetch acc st rec h.tag).2
                ((fetch acc st rec h.tag).1.toNat / rec.n_sample) k))⟩ := by
  rcases hh with hh | hh <;> subst hh
  · exact calc_dosage_PL_eq A acc st rec hn hty hret hbuf hpre
  · exact calc_dosage_GL_eq A acc st rec hn hty hret hbuf hpre

theorem run_handlers_first_success (A : FloatOps F) (acc : Accessor) (rec : Rec) (m : Handler)
    (post : List Handler) :
    ∀ (pre : List Handler) (st : State),
      (∀ h ∈ pre, ∀ buf, h.nret acc st.in_hdr st.pl_type rec buf < 0) →
      (∀ buf, ∃ r, m.call A acc { st with buf := buf } rec = some r ∧ r.ret = 0) →
      ∃ b r, m.call A acc { st with buf := b } rec = some r ∧ r.ret = 0
        ∧ run_handlers A acc rec (pre ++ m :: post) st = some ⟨true, r.buf, r.out, pre ++ [m]⟩ := by
  intro pre
  induction pre with
  | nil =>
    intro st _ hm
    obtain ⟨r, hr, h0⟩ := hm st.buf
    refine ⟨st.buf, r, hr, h0, ?_⟩
    have hst : ({ st with buf := st.buf } : State) = st := rfl
    rw [hst] at hr
    simp [run_handlers, hr, h0]
  | cons h hs ih =>
    intro st hfail hm
    obtain ⟨b, hb⟩ := call_of_nret_neg A acc h st rec (hfail h (List.mem_cons_self _ _) st.buf)
    obtain ⟨b2, r, hr, h0, hrun⟩ := ih { st with buf := b }
      (fun h2 hh2 buf => hfail h2 (List.mem_cons_of_mem _ hh2) buf) hm
    exact ⟨b2, r, hr, h0, by simp [run_handlers, hb, hrun]⟩

/-- The dispatcher on a registry `pre ++ m :: post` whose methods `pre` fail
outright and whose method `m` returns 0: the row holds exactly the values
printed by `m`, and the methods called are `pre` and `m`, none of `post`. -/
theorem process_first_success (A : FloatOps F) (acc : Accessor) (st : State) (rec : Rec)
    (pre post : List Handler) (m : Handler) (hall : 1 < rec.n_allele)
    (hreg : st.handlers = pre ++ m :: post)
    (hfail : ∀ h ∈ pre, ∀ buf, h.nret acc st.in_hdr st.pl_type rec buf < 0)
    (hm : ∀ buf, ∃ r, m.call A acc { st with buf := buf } rec = some r ∧ r.ret = 0) :
    ∃ b r p, m.call A acc { st with buf := b } rec = some r ∧ r.ret = 0
      ∧ process A acc st rec = some p
      ∧ p.row.dosages = r.out
      ∧ p.called = pre ++ [m] := by
  obtain ⟨b, r, hr, h0, hrun⟩ := run_handlers_first_success A acc rec m post pre st hfail hm
  have h1 : rec.n_allele ≠ 1 := by omega
  have hp : process A acc st rec = some ⟨1, { st with buf := r.buf },
      ⟨rec.chrom, rec.pos + 1, rec.allele.getD 0 "",
        if rec.n_allele > 1 then rec.allele.getD 1 "" else ".", r.out ++ []⟩, pre ++ [m]⟩ := by
    simp only [process, h1, if_false, hreg, hrun, if_true]
  exact ⟨b, r, _, hr, h0, hp, by simp, rfl⟩

/-- With an accessor that does not check the requested type, the usual header
and the default tags: the GL of the record starts with the `float` missing
sentinel, `calc_dosage_GL` reads the cells as `int32_t` (the type of PL), does
not see the sentinel and prints `0.0` where the GL dosage is `-1.0`. -/
theorem process_GL_decoded_as_PL_type :
    (process milli untyped (init State.initial none hdr_std).st rec_gl_miss).map
        (fun r => (r.row.dosages, r.called))
        = some ([milli.zero], [Handler.PL, Handler.GL])
      ∧ (calc_dosage_GL milli untyped
            { (init State.initial none hdr_std).st with
              pl_type := (init State.initial none hdr_std).st.gl_type } rec_gl_miss).map
          (fun r => (r.ret, r.out)) = some (0, [milli.negOne]) := by
  decide

theorem calc_dosage_GL_no_branch (A : FloatOps F) (acc : Accessor) (st : State) (rec : Rec)
    (hn : rec.n_sample ≠ 0) (h1 : st.pl_type ≠ BCF_HT_INT) (h2 : st.pl_type ≠ BCF_HT_REAL) :
    ∃ r, calc_dosage_GL A acc st rec = some r ∧ r.out = [] := by
  by_cases hneg : (acc.get_format_values st.in_hdr rec "GL" st.pl_type st.buf).1 < 0 <;>
    simp [calc_dosage_GL, hneg, hn, h1, h2]

/-- C1, the code departs from the claim. Header: PL Integer, GL Float, GT; default
tags, so the registry is PL, GL, GT. The record carries GL `0,0,0` and GT `0/0`
but no PL. `process` calls all three methods and prints the GT dosage `0.0`:
`calc_dosage_GL` asks for GL with the type of PL and is refused. Decoded with
the declared type of GL the same record gives the GL dosage `1.0`. -/
theorem process_GL_present_not_used :
    (init State.initial none hdr_std).ret = 1
      ∧ (init State.initial none hdr_std).st.handlers = [Handler.PL, Handler.GL, Handler.GT]
      ∧ rec_gl_gt.fields.lookup "PL" = none
      ∧ rec_gl_gt.fields.lookup "GL" = some [0, 0, 0]
      ∧ (process milli htslib (init State.initial none hdr_std).st rec_gl_gt).map
          (fun r => (r.row.dosages, r.called))
          = some ([milli.zero], [Handler.PL, Handler.GL, Handler.GT])
      ∧ (calc_dosage_GL milli htslib
            { (init State.initial none hdr_std).st with
              pl_type := (init State.initial none hdr_std).st.gl_type } rec_gl_gt).map
          (fun r => (r.ret, r.out)) = some (0, [milli.one]) := by
  decide

/-- C4, the code departs from the claim. First, with the usual header and the
default tags, a record with six PL values for its sample makes
`calc_dosage_PL` store to `vals[3]`: the behaviour is undefined and no row is
guaranteed. Second, with a header declaring GL but not PL, `pl_type` stays 0;
when the accessor decodes GL without checking the requested type,
`calc_dosage_GL` returns 0 from a `switch` that matches no case, and the row
of a one-sample record has no dosage value. -/
theorem process_row_not_full :
    (init State.initial none hdr_std).ret = 1
      ∧ (process milli htslib (init State.initial none hdr_std).st rec_pl6).map
          (fun r => r.row.dosages) = none
      ∧ (calc_dosage_PL milli htslib (init State.initial none hdr_std).st rec_pl6).map
          (fun r => r.out) = none
      ∧ (init State.initial none hdr_gl).ret = 1
      ∧ rec_gl_gt.n_sample = 1
      ∧ (process milli untyped (init State.initial none hdr_gl).st rec_gl_gt).map
          (fun r => (r.row.dosages, r.called)) = some ([], [Handler.GL]) := by
  decide

/-- C8, the code departs from the claim. Header: GL Float and GT, no PL; default
tags. `init` succeeds with `gl_type` Float and `pl_type` still 0. On a record
whose GL values are `0,0,0`, `calc_dosage_GL` prints no value at all: under
htslib it is refused (return -1) because it asks for type 0, and with an
accessor that does not check the type it returns 0 without printing. The row
printed by `process` holds the GT dosage `0.0`. With `pl_type` replaced by
`gl_type` the method prints `1.0`. -/
theorem calc_dosage_GL_uses_pl_type :
    (init State.initial none hdr_gl).ret = 1
      ∧ (init State.initial none hdr_gl).st.gl_type = BCF_HT_REAL
      ∧ (init State.initial none hdr_gl).st.pl_type = 0
      ∧ rec_gl_gt.fields.lookup "GL" = some [0, 0, 0]
      ∧ (calc_dosage_GL milli htslib (init State.initial none hdr_gl).st rec_gl_gt).map
          (fun r => (r.ret, r.out)) = some (-1, [])
      ∧ (calc_dosage_GL milli untyped (init State.initial none hdr_gl).st rec_gl_gt).map
          (fun r => (r.ret, r.out)) = some (0, [])
      ∧ (process milli htslib (init State.initial none hdr_gl).st rec_gl_gt).map
          (fun r => r.row.dosages) = some [milli.zero]
      ∧ (calc_dosage_GL milli htslib
            { (init State.initial none hdr_gl).st with
              pl_type := (init State.initial none hdr_gl).st.gl_type } rec_gl_gt).map
          (fun r => (r.ret, r.out)) = some (0, [milli.one]) := by
  decide

/-! ## What `init` guarantees about `pl_type` -/

theorem init_loop_pl_bound :
    ∀ (tags : List String) (st : State),
      (Handler.PL ∈ st.handlers → pl_bound st) →
      Handler.PL ∈ (init_loop tags st).1.handlers → pl_bound (init_loop tags st).1 := by
  intro tags
  induction tags with
  | nil => intro st h; simpa [init_loop] using h
  | cons t ts ih =>
    intro st h
    by_cases hPL : t = "PL"
    · subst hPL
      cases hty : st.in_hdr.fmt_type "PL" with
      | none =>
        have := ih st h
        simpa [init_loop, hty] using this
      | some ty =>
        by_cases hnum : ty ≠ BCF_HT_INT ∧ ty ≠ BCF_HT_REAL
        · simp only [init_loop, if_true, hty]
          rw [if_pos hnum]
          intro hmem
          obtain ⟨h1, h2⟩ := h hmem
          rw [hty] at h1
          have : ty = st.pl_type := Option.some.inj h1
          rw [← this] at h2
          rcases h2 with h2 | h2
          · exact absurd h2 hnum.1
          · exact absurd h2 hnum.2
        · have hb : pl_bound { st with pl_type := ty, handlers := st.handlers ++ [Handler.PL] } := by
            refine ⟨hty, ?_⟩
            show ty = BCF_HT_INT ∨ ty = BCF_HT_REAL
            by_cases h1 : ty = BCF_HT_INT
            · exact Or.inl h1
            · by_cases h2 : ty = BCF_HT_REAL
              · exact Or.inr h2
              · exact absurd ⟨h1, h2⟩ hnum
          have := ih { st with pl_type := ty, handlers := st.handlers ++ [Handler.PL] }
            (fun _ => hb)
          simpa [init_loop, hty, hnum] using this
    · by_cases hGL : t = "GL"
      · subst hGL
        cases hty : st.in_hdr.fmt_type "GL" with
        | none =>
          have := ih st h
          simpa [init_loop, hty] using this
        | some ty =>
          by_cases hnum : ty ≠ BCF_HT_INT ∧ ty ≠ BCF_HT_REAL
          · simp only [init_loop, hPL, if_false, if_true, hty]
            rw [if_pos hnum]
            exact h
          · have := ih { st with gl_type := ty, handlers := st.handlers ++ [Handler.GL] }
              (by
                intro hmem
                have hm : Handler.PL ∈ st.handlers := by simpa using hmem
                exact h hm)
            simpa [init_loop, hty, hnum] using this
      · by_cases hGT : t = "GT"
        · subst hGT
          have := ih { st with handlers := st.handlers ++ [Handler.GT] }
            (by
              intro hmem
              have hm : Handler.PL ∈ st.handlers := by simpa using hmem
              exact h hm)
          simpa [init_loop] using this
        · simp only [init_loop, hPL, hGL, hGT, if_false]
          exact h

theorem init_pl_bound (opts : Option (List String)) (hdr : Hdr)
    (h : Handler.PL ∈ (init State.initial opts hdr).st.handlers) :
    pl_bound (init State.initial opts hdr).st := by
  have key := init_loop_pl_bound (config_get_list opts) { State.initial with in_hdr := hdr }
    (by intro hm; simp [State.initial] at hm)
  have hst : (init State.initial opts hdr).st
      = (init_loop (config_get_list opts) { State.initial with in_hdr := hdr }).1 := by
    simp only [init]
    split <;> simp_all
  rw [hst] at h ⊢
  exact key h

/-! ## Declared types that are not numeric -/

theorem numeric_ok_false_type (hdr : Hdr) (x : String) (h : numeric_ok hdr x = false) :
    x ≠ "GT" ∧ ∃ ty, hdr.fmt_type x = some ty ∧ ty ≠ BCF_HT_INT ∧ ty ≠ BCF_HT_REAL := by
  by_cases hGT : x = "GT"
  · simp [numeric_ok, hGT] at h
  · refine ⟨hGT, ?_⟩
    cases hty : hdr.fmt_type x with
    | none => simp [numeric_ok, hGT, hty] at h
    | some ty =>
      simp [numeric_ok, hGT, hty] at h
      exact ⟨ty, rfl, h.1, h.2⟩

theorem init_loop_step_PL_bad (ts : List String) (st : State) (ty : Int)
    (hty : st.in_hdr.fmt_type "PL" = some ty) (hnum : ty ≠ BCF_HT_INT ∧ ty ≠ BCF_HT_REAL) :
    (init_loop ("PL" :: ts) st).2 = some (Msg.expected_numeric "PL") := by
  simp only [init_loop, if_true, hty]
  rw [if_pos hnum]

theorem init_loop_step_GL_bad (ts : List String) (st : State) (ty : Int)
    (hty : st.in_hdr.fmt_type "GL" = some ty) (hnum : ty ≠ BCF_HT_INT ∧ ty ≠ BCF_HT_REAL) :
    (init_loop ("GL" :: ts) st).2 = some (Msg.expected_numeric "GL") := by
  have hne : ¬ ("GL" = "PL") := by decide
  simp only [init_loop, hne, if_false, if_true, hty]
  rw [if_pos hnum]

theorem init_loop_step_pass (t : String) (ts : List String) (st : State)
    (hk : known_tag t = true) (hok : numeric_ok st.in_hdr t = true) :
    ∃ st1, st1.in_hdr = st.in_hdr ∧ init_loop (t :: ts) st = init_loop ts st1 := by
  have ht : t = "PL" ∨ t = "GL" ∨ t = "GT" := by
    simpa [known_tag, or_assoc] using hk
  rcases ht with h | h | h
  · subst h
    cases hty : st.in_hdr.fmt_type "PL" with
    | none => exact ⟨st, rfl, by simp [init_loop, hty]⟩
    | some ty =>
      have hnum : ¬ (ty ≠ BCF_HT_INT ∧ ty ≠ BCF_HT_REAL) := by
        simp [numeric_ok, hty] at hok
        tauto
      refine ⟨{ st with pl_type := ty, handlers := st.handlers ++ [Handler.PL] }, rfl, ?_⟩
      simp only [init_loop, if_true, hty]
      rw [if_neg hnum]
  · subst h
    have hne : ¬ ("GL" = "PL") := by decide
    cases hty : st.in_hdr.fmt_type "GL" with
    | none => exact ⟨st, rfl, by simp [init_loop, hty]⟩
    | some ty =>
      have hnum : ¬ (ty ≠ BCF_HT_INT ∧ ty ≠ BCF_HT_REAL) := by
        simp [numeric_ok, hty] at hok
        tauto
      refine ⟨{ st with gl_type := ty, handlers := st.handlers ++ [Handler.GL] }, rfl, ?_⟩
      simp only [init_loop, hne, if_false, if_true, hty]
      rw [if_neg hnum]
  · subst h
    exact ⟨{ st with handlers := st.handlers ++ [Handler.GT] }, rfl, by simp [init_loop]⟩

theorem init_loop_all_pass :
    ∀ (tags : List String) (st : State),
      (∀ t ∈ tags, known_tag t = true ∧ numeric_ok st.in_hdr t = true) →
      (init_loop tags st).2 = none := by
  intro tags
  induction tags with
  | nil => intro st _; rfl
  | cons t ts ih =>
    intro st h
    obtain ⟨hk, hok⟩ := h t (List.mem_cons_self _ _)
    obtain ⟨st1, hhdr, heq⟩ := init_loop_step_pass t ts st hk hok
    rw [heq]
    apply ih
    intro u hu
    rw [hhdr]
    exact h u (List.mem_cons_of_mem _ hu)

theorem init_loop_known_bad (t : String) (ts : List String) (st : State)
    (hk : known_tag t = true) (hbad : numeric_ok st.in_hdr t = false) :
    (t = "PL" ∨ t = "GL") ∧ (init_loop (t :: ts) st).2 = some (Msg.expected_numeric t) := by
  obtain ⟨hGT, ty, hty, hnum⟩ := numeric_ok_false_type _ _ hbad
  have ht : t = "PL" ∨ t = "GL" ∨ t = "GT" := by
    simpa [known_tag, or_assoc] using hk
  rcases ht with h | h | h
  · subst h
    exact ⟨Or.inl rfl, init_loop_step_PL_bad ts st ty hty hnum⟩
  · subst h
    exact ⟨Or.inr rfl, init_loop_step_GL_bad ts st ty hty hnum⟩
  · exact absurd h hGT

theorem init_loop_step_unknown (t : String) (ts : List String) (st : State)
    (hk : ¬ known_tag t = true) :
    (init_loop (t :: ts) st).2 = some (Msg.no_handler t) := by
  have h3 : ¬ t = "PL" ∧ ¬ t = "GL" ∧ ¬ t = "GT" := by
    simp [known_tag] at hk
    exact ⟨hk.1.1, hk.1.2, hk.2⟩
  simp [init_loop, h3.1, h3.2.1, h3.2.2]

theorem init_loop_bad_type (x : String) (post : List String) (hx : x = "PL" ∨ x = "GL") :
    ∀ (pre : List String) (st : State), numeric_ok st.in_hdr x = false →
      (∃ m, (init_loop (pre ++ x :: post) st).2 = some m)
        ∧ ((∀ t ∈ pre, known_tag t = true) →
            ∃ u, (u = "PL" ∨ u = "GL") ∧ numeric_ok st.in_hdr u = false
              ∧ (init_loop (pre ++ x :: post) st).2 = some (Msg.expected_numeric u)) := by
  have hkx : known_tag x = true := by
    rcases hx with h | h <;> subst h <;> decide
  intro pre
  induction pre with
  | nil =>
    intro st hbad
    obtain ⟨_, hmsg⟩ := init_loop_known_bad x post st hkx hbad
    exact ⟨⟨_, hmsg⟩, fun _ => ⟨x, hx, hbad, hmsg⟩⟩
  | cons t ts ih =>
    intro st hbad
    by_cases hk : known_tag t = true
    · by_cases hok : numeric_ok st.in_hdr t = true
      · obtain ⟨st1, hhdr, heq⟩ := init_loop_step_pass t (ts ++ x :: post) st hk hok
        have := ih st1 (by rw [hhdr]; exact hbad)
        rw [hhdr] at this
        simp only [List.cons_append]
        rw [heq]
        exact ⟨this.1, fun h => this.2 (fun u hu => h u (List.mem_cons_of_mem _ hu))⟩
      · have hb : numeric_ok st.in_hdr t = false := by
          cases h : numeric_ok st.in_hdr t
          · rfl
          · exact absurd h hok
        obtain ⟨htt, hmsg⟩ := init_loop_known_bad t (ts ++ x :: post) st hk hb
        exact ⟨⟨_, hmsg⟩, fun _ => ⟨t, htt, hb, hmsg⟩⟩
    · have hmsg := init_loop_step_unknown t (ts ++ x :: post) st hk
      exact ⟨⟨_, hmsg⟩, fun h => absurd (h t (List.mem_cons_self _ _)) hk⟩

/-- C11, the claim as stated fails: with PL declared as a String, the request
`XX,PL` makes `init` return -1 with the unknown-tag message for `XX`; the type
of FORMAT/PL is never looked at. -/
theorem init_bad_type_after_unknown_tag :
    (init State.initial (some ["XX", "PL"]) hdr_pl_str).ret = -1
      ∧ (init State.initial (some ["XX", "PL"]) hdr_pl_str).stderr = [Msg.no_handler "XX"]
      ∧ (init State.initial (some ["XX", "PL"]) hdr_pl_str).stderr
          ≠ [Msg.expected_numeric "PL"] := by
  decide

theorem init_loop_first_fail (rest : List String) :
    ∀ (pre : List String) (st : State),
      (∃ t ∈ pre, ¬ (known_tag t = true ∧ numeric_ok st.in_hdr t = true)) →
      ∃ pre1 y post1, pre = pre1 ++ y :: post1
        ∧ (∀ t ∈ pre1, known_tag t = true ∧ numeric_ok st.in_hdr t = true)
        ∧ ((known_tag y = false
              ∧ (init_loop (pre ++ rest) st).2 = some (Msg.no_handler y))
          ∨ ((y = "PL" ∨ y = "GL") ∧ numeric_ok st.in_hdr y = false
              ∧ (init_loop (pre ++ rest) st).2 = some (Msg.expected_numeric y))) := by
  intro pre
  induction pre with
  | nil =>
    intro st hex
    obtain ⟨t, ht, _⟩ := hex
    simp at ht
  | cons t ts ih =>
    intro st hex
    by_cases hk : known_tag t = true
    · by_cases hok : numeric_ok st.in_hdr t = true
      · obtain ⟨st1, hhdr, heq⟩ := init_loop_step_pass t (ts ++ rest) st hk hok
        have hex1 : ∃ u ∈ ts, ¬ (known_tag u = true ∧ numeric_ok st1.in_hdr u = true) := by
          obtain ⟨u, hu, hnu⟩ := hex
          rcases List.mem_cons.1 hu with h | h
          · subst h
            exact absurd ⟨hk, hok⟩ hnu
          · exact ⟨u, h, by rw [hhdr]; exact hnu⟩
        obtain ⟨pre1, y, post1, hsplit, hall, hmsg⟩ := ih st1 hex1
        rw [hhdr] at hall hmsg
        refine ⟨t :: pre1, y, post1, by rw [hsplit]; rfl, ?_, ?_⟩
        · intro u hu
          rcases List.mem_cons.1 hu with h | h
          · subst h
            exact ⟨hk, hok⟩
          · exact hall u h
        · simp only [List.cons_append]
          rw [heq]
          exact hmsg
      · have hb : numeric_ok st.in_hdr t = false := by
          cases h : numeric_ok st.in_hdr t
          · rfl
          · exact absurd h hok
        obtain ⟨htt, hmsg⟩ := init_loop_known_bad t (ts ++ rest) st hk hb
        exact ⟨[], t, ts, rfl, by simp, Or.inr ⟨htt, hb, hmsg⟩⟩
    · have hkf : known_tag t = false := by
        cases h : known_tag t
        · rfl
        · exact absurd h hk
      have hmsg := init_loop_step_unknown t (ts ++ rest) st hk
      exact ⟨[], t, ts, rfl, by simp, Or.inl ⟨hkf, hmsg⟩⟩

theorem init_all_pass (st : State) (hdr : Hdr) (tags : List String)
    (hall : ∀ t ∈ tags, known_tag t = true ∧ numeric_ok hdr t = true) :
    (init st (some tags) hdr).ret = 1 ∧ (init st (some tags) hdr).stderr = [] := by
  have h := init_loop_all_pass tags { st with in_hdr := hdr } hall
  have hsplit : init_loop tags { st with in_hdr := hdr }
      = ((init_loop tags { st with in_hdr := hdr }).1, none) := by
    rw [← h]
  simp only [init, config_get_list]
  rw [hsplit]
  exact ⟨rfl, rfl⟩

/-- C11, amended. For every header `hdr` and every prior content of the globals:

1. When the requested list contains PL or GL (`x`) and the header declares `x`
   with a type that is neither Integer nor Float, `init` returns -1 and prints no
   header line. When every name requested before `x` is PL, GL or GT, the message
   is the unsupported-type message of a PL or GL tag so declared. When a name
   other than PL, GL and GT is requested before `x`, the message is that of the
   first failing tag `y` in request order, which lies before `x`: the unknown-tag
   message for `y` if `y` is not PL, GL or GT, the unsupported-type message for
   `y` if `y` is a PL or GL declared with a type that is neither Integer nor
   Float.
2. Conversely, whether or not the header declares some PL or GL with such a
   type: a request in which every name is PL, GL or GT and every PL or GL is
   undeclared or declared Integer or Float makes `init` return 1 with no
   message.
3. Whenever `init` returns -1, the message is the unknown-tag message of a
   requested name other than PL, GL and GT, or the unsupported-type message of a
   requested PL or GL declared with a type that is neither Integer nor Float: a
   PL or GL declared Integer or Float is never what makes `init` fail. -/
theorem init_unsupported_type (hdr : Hdr) :
    (∀ (st : State) (pre post : List String) (x : String),
        (x = "PL" ∨ x = "GL") → numeric_ok hdr x = false →
        (init st (some (pre ++ x :: post)) hdr).ret = -1
          ∧ (init st (some (pre ++ x :: post)) hdr).stdout = []
          ∧ ((∀ t ∈ pre, known_tag t = true) →
              ∃ u, (u = "PL" ∨ u = "GL") ∧ numeric_ok hdr u = false
                ∧ (init st (some (pre ++ x :: post)) hdr).stderr = [Msg.expected_numeric u])
          ∧ ((∃ t ∈ pre, known_tag t = false) →
              ∃ pre1 y post1, pre = pre1 ++ y :: post1
                ∧ (∀ t ∈ pre1, known_tag t = true ∧ numeric_ok hdr t = true)
                ∧ ((known_tag y = false
                      ∧ (init st (some (pre ++ x :: post)) hdr).stderr = [Msg.no_handler y])
                  ∨ ((y = "PL" ∨ y = "GL") ∧ numeric_ok hdr y = false
                      ∧ (init st (some (pre ++ x :: post)) hdr).stderr
                          = [Msg.expected_numeric y]))))
      ∧ (∀ (st : State) (tags : List String),
          (∀ t ∈ tags, known_tag t = true ∧ numeric_ok hdr t = true) →
          (init st (some tags) hdr).ret = 1 ∧ (init st (some tags) hdr).stderr = [])
      ∧ (∀ (st : State) (tags : List String), (init st (some tags) hdr).ret = -1 →
          ∃ y ∈ tags,
            (known_tag y = false ∧ (init st (some tags) hdr).stderr = [Msg.no_handler y])
              ∨ ((y = "PL" ∨ y = "GL") ∧ numeric_ok hdr y = false
                  ∧ (init st (some tags) hdr).stderr = [Msg.expected_numeric y])) := by
  refine ⟨?_, ?_, ?_⟩
  · intro st pre post x hx hbad
    obtain ⟨⟨m, hm⟩, h2⟩ := init_loop_bad_type x post hx pre { st with in_hdr := hdr } hbad
    rw [init_of_loop_msg st _ hdr m hm]
    refine ⟨rfl, rfl, ?_, ?_⟩
    · intro hk
      obtain ⟨u, hu, hub, hmsg⟩ := h2 hk
      rw [hm] at hmsg
      exact ⟨u, hu, hub, by simp [Option.some.inj hmsg]⟩
    · intro hex
      have hex1 : ∃ t ∈ pre, ¬ (known_tag t = true
          ∧ numeric_ok ({ st with in_hdr := hdr } : State).in_hdr t = true) := by
        obtain ⟨t, ht, hkf⟩ := hex
        exact ⟨t, ht, fun h => by rw [hkf] at h; exact absurd h.1 (by decide)⟩
      obtain ⟨pre1, y, post1, hsplit, hall, hmsg⟩ :=
        init_loop_first_fail (x :: post) pre { st with in_hdr := hdr } hex1
      refine ⟨pre1, y, post1, hsplit, hall, ?_⟩
      rcases hmsg with ⟨hkf, hmsg⟩ | ⟨hy, hyb, hmsg⟩
      · rw [hm] at hmsg
        exact Or.inl ⟨hkf, by simp [Option.some.inj hmsg]⟩
      · rw [hm] at hmsg
        exact Or.inr ⟨hy, hyb, by simp [Option.some.inj hmsg]⟩
  · intro st tags hall
    exact init_all_pass st hdr tags hall
  · intro st tags hret
    by_cases hall : ∀ t ∈ tags, known_tag t = true ∧ numeric_ok hdr t = true
    · have h1 := (init_all_pass st hdr tags hall).1
      rw [h1] at hret
      exact absurd hret (by decide)
    · have hex1 : ∃ t ∈ tags, ¬ (known_tag t = true
          ∧ numeric_ok ({ st with in_hdr := hdr } : State).in_hdr t = true) := by
        by_contra hno
        apply hall
        intro t ht
        by_contra hnt
        exact hno ⟨t, ht, hnt⟩
      obtain ⟨pre1, y, post1, hsplit, _, hmsg⟩ :=
        init_loop_first_fail [] tags { st with in_hdr := hdr } hex1
      rw [List.append_nil] at hmsg
      have hy : y ∈ tags := by
        rw [hsplit]
        simp
      refine ⟨y, hy, ?_⟩
      rcases hmsg with ⟨hkf, hmsg⟩ | ⟨hyy, hyb, hmsg⟩
      · rw [init_of_loop_msg st _ hdr _ hmsg]
        exact Or.inl ⟨hkf, rfl⟩
      · rw [init_of_loop_msg st _ hdr _ hmsg]
        exact Or.inr ⟨hyy, hyb, rfl⟩

/-- C11 (amended) on concrete inputs. Against a header declaring PL as a String:
the request `GT,PL,GL` (every earlier name known) and the request `GT,XX,PL,GL`
(an unknown name earlier). Against the usual header: the default request
`PL,GL,GT` succeeds. Against the first header: the failing request `XX,PL`. -/
theorem init_unsupported_type_witness :
    ((init State.initial (some (["GT"] ++ "PL" :: ["GL"])) hdr_pl_str).ret = -1
      ∧ (init State.initial (some (["GT"] ++ "PL" :: ["GL"])) hdr_pl_str).stdout = []
      ∧ ((∀ t ∈ ["GT"], known_tag t = true) →
          ∃ u, (u = "PL" ∨ u = "GL") ∧ numeric_ok hdr_pl_str u = false
            ∧ (init State.initial (some (["GT"] ++ "PL" :: ["GL"])) hdr_pl_str).stderr
              = [Msg.expected_numeric u])
      ∧ ((∃ t ∈ ["GT"], known_tag t = false) →
          ∃ pre1 y post1, ["GT"] = pre1 ++ y :: post1
            ∧ (∀ t ∈ pre1, known_tag t = true ∧ numeric_ok hdr_pl_str t = true)
            ∧ ((known_tag y = false
                  ∧ (init State.initial (some (["GT"] ++ "PL" :: ["GL"])) hdr_pl_str).stderr
                      = [Msg.no_handler y])
              ∨ ((y = "PL" ∨ y = "GL") ∧ numeric_ok hdr_pl_str y = false
                  ∧ (init State.initial (some (["GT"] ++ "PL" :: ["GL"])) hdr_pl_str).stderr
                      = [Msg.expected_numeric y]))))
    ∧ ((init State.initial (some (["GT", "XX"] ++ "PL" :: ["GL"])) hdr_pl_str).ret = -1
      ∧ (init State.initial (some (["GT", "XX"] ++ "PL" :: ["GL"])) hdr_pl_str).stdout = []
      ∧ ((∀ t ∈ ["GT", "XX"], known_tag t = true) →
          ∃ u, (u = "PL" ∨ u = "GL") ∧ numeric_ok hdr_pl_str u = false
            ∧ (init State.initial (some (["GT", "XX"] ++ "PL" :: ["GL"])) hdr_pl_str).stderr
              = [Msg.expected_numeric u])
      ∧ ((∃ t ∈ ["GT", "XX"], known_tag t = false) →
          ∃ pre1 y post1, ["GT", "XX"] = pre1 ++ y :: post1
            ∧ (∀ t ∈ pre1, known_tag t = true ∧ numeric_ok hdr_pl_str t = true)
            ∧ ((known_tag y = false
                  ∧ (init State.initial (some (["GT", "XX"] ++ "PL" :: ["GL"]))
                      hdr_pl_str).stderr = [Msg.no_handler y])
              ∨ ((y = "PL" ∨ y = "GL") ∧ numeric_ok hdr_pl_str y = false
                  ∧ (init State.initial (some (["GT", "XX"] ++ "PL" :: ["GL"]))
                      hdr_pl_str).stderr = [Msg.expected_numeric y]))))
    ∧ ((init State.initial (some ["PL", "GL", "GT"]) hdr_std).ret = 1
      ∧ (init State.initial (some ["PL", "GL", "GT"]) hdr_std).stderr = [])
    ∧ (∃ y ∈ ["XX", "PL"],
        (known_tag y = false
          ∧ (init State.initial (some ["XX", "PL"]) hdr_pl_str).stderr = [Msg.no_handler y])
        ∨ ((y = "PL" ∨ y = "GL") ∧ numeric_ok hdr_pl_str y = false
            ∧ (init State.initial (some ["XX", "PL"]) hdr_pl_str).stderr
                = [Msg.expected_numeric y])) :=
  ⟨(init_unsupported_type hdr_pl_str).1 State.initial ["GT"] ["GL"] "PL" (Or.inl rfl)
      (by decide),
    (init_unsupported_type hdr_pl_str).1 State.initial ["GT", "XX"] ["GL"] "PL" (Or.inl rfl)
      (by decide),
    (init_unsupported_type hdr_std).2.1 State.initial ["PL", "GL", "GT"] (by decide),
    (init_unsupported_type hdr_pl_str).2.2 State.initial ["XX", "PL"] (by decide)⟩

/-! ## The type a likelihood method decodes with -/

/-- C12, the code departs from the claim. The two headers declare GL as Float
and differ only in the type of PL (Integer or Float). After `init` with the
default tags `gl_type` is Float in both cases, yet on the same record
(GL `0,0,0`) `calc_dosage_GL` is refused by htslib with -2 and returns -1 when
PL is Integer, and prints `1.0` when PL is Float: the request and the `switch`
use `pl_type`. Changing `gl_type` changes nothing. -/
theorem calc_dosage_GL_bound_to_pl_type :
    (init State.initial none hdr_std).st.gl_type = BCF_HT_REAL
      ∧ (init State.initial none hdr_std).st.pl_type = BCF_HT_INT
      ∧ (init State.initial none hdr_ff).st.gl_type = BCF_HT_REAL
      ∧ (init State.initial none hdr_ff).st.pl_type = BCF_HT_REAL
      ∧ hdr_std.fmt_type "GL" = hdr_ff.fmt_type "GL"
      ∧ (fetch htslib (init State.initial none hdr_std).st rec_gl_gt "GL").1 = -2
      ∧ (calc_dosage_GL milli htslib (init State.initial none hdr_std).st rec_gl_gt).map
          (fun r => (r.ret, r.out)) = some (-1, [])
      ∧ (calc_dosage_GL milli htslib (init State.initial none hdr_ff).st rec_gl_gt).map
          (fun r => (r.ret, r.out)) = some (0, [milli.one])
      ∧ (∀ g : Int,
          (calc_dosage_GL milli htslib
            { (init State.initial none hdr_std).st with gl_type := g } rec_gl_gt).map
              (fun r => (r.ret, r.out))
            = (calc_dosage_GL milli htslib (init State.initial none hdr_std).st rec_gl_gt).map
              (fun r => (r.ret, r.out))) := by
  refine ⟨by decide, by decide, by decide, by decide, by decide, by decide, by decide,
    by decide, fun g => rfl⟩

theorem calc_dosage_GL_ignores_gl_type (A : FloatOps F) (acc : Accessor) (st : State) (rec : Rec)
    (g : Int) : calc_dosage_GL A acc { st with gl_type := g } rec = calc_dosage_GL A acc st rec :=
  rfl

/-! ## Methods that fail outright leave nothing in the row -/

theorem call_congr_state (A : FloatOps F) (acc : Accessor) (h : Handler) (st st2 : State)
    (rec : Rec) (h1 : st.in_hdr = st2.in_hdr) (h2 : st.pl_type = st2.pl_type)
    (h3 : st.buf = st2.buf) : h.call A acc st rec = h.call A acc st2 rec := by
  cases h <;>
    simp only [Handler.call, calc_dosage_PL, calc_dosage_GL, calc_dosage_GT, h1, h2, h3]

theorem run_handlers_congr_state (A : FloatOps F) (acc : Accessor) (rec : Rec) :
    ∀ (hs : List Handler) (st st2 : State), st.in_hdr = st2.in_hdr → st.pl_type = st2.pl_type →
      st.buf = st2.buf → run_handlers A acc rec hs st = run_handlers A acc rec hs st2 := by
  intro hs
  induction hs with
  | nil => intro st st2 _ _ h3; simp [run_handlers, h3]
  | cons h hs ih =>
    intro st st2 h1 h2 h3
    simp only [run_handlers, call_congr_state A acc h st st2 rec h1 h2 h3]
    cases h.call A acc st2 rec with
    | none => rfl
    | some r =>
      simp only []
      rw [ih { st with buf := r.buf } { st2 with buf := r.buf } h1 h2 rfl]

/-- C13. A method whose accessor call reports a negative count returns -1 and
prints nothing, for each of the three methods. When it stands first in the
registry, the dosages of the row `process` emits are those `process` emits
with that method removed from the registry: the row holds only what the
remaining methods (or the `-1.0` fallback) print. -/
theorem failed_method_emits_nothing (A : FloatOps F) (acc : Accessor) (st : State) (rec : Rec)
    (h : Handler) (hs : List Handler)
    (hneg : h.nret acc st.in_hdr st.pl_type rec st.buf < 0)
    (hreg : st.handlers = h :: hs) (hall : 1 < rec.n_allele) :
    ∃ b, h.call A acc st rec = some ⟨-1, b, []⟩
      ∧ (process A acc st rec).map (fun p => p.row.dosages)
          = (process A acc { st with buf := b, handlers := hs } rec).map
              (fun p => p.row.dosages) := by
  obtain ⟨b, hb⟩ := call_of_nret_neg A acc h st rec hneg
  refine ⟨b, hb, ?_⟩
  have h1 : rec.n_allele ≠ 1 := by omega
  have hc := run_handlers_congr_state A acc rec hs { st with buf := b }
    { st with buf := b, handlers := hs } rfl rfl rfl
  have hL : run_handlers A acc rec st.handlers st
      = (match run_handlers A acc rec hs { st with buf := b, handlers := hs } with
        | none => none
        | some l => some ⟨l.found, l.buf, l.out, h :: l.called⟩) := by
    rw [hreg, ← hc]
    simp [run_handlers, hb]
  simp only [process, h1, if_false, hL]
  cases run_handlers A acc rec hs { st with buf := b, handlers := hs } with
  | none => rfl
  | some l => simp

/-- C13 on a concrete input: the usual header and default tags, a record without
PL, so that `calc_dosage_PL` fails outright. -/
theorem failed_method_emits_nothing_witness :
    ∃ b, Handler.PL.call milli htslib (init State.initial none hdr_std).st rec_gl_gt
        = some ⟨-1, b, []⟩
      ∧ (process milli htslib (init State.initial none hdr_std).st rec_gl_gt).map
          (fun p => p.row.dosages)
          = (process milli htslib
              { (init State.initial none hdr_std).st with
                buf := b, handlers := [Handler.GL, Handler.GT] } rec_gl_gt).map
              (fun p => p.row.dosages) :=
  failed_method_emits_nothing milli htslib (init State.initial none hdr_std).st rec_gl_gt
    Handler.PL [Handler.GL, Handler.GT] (by decide) (by decide) (by decide)

/-! ## Which cells of the buffer a method reads -/

theorem fill_vals_congr (stop : Word → Bool) (tr : Word → F) (p q : List Word) :
    ∀ (k j : Nat) (v : Vals F), (∀ idx, j ≤ idx → idx < j + k → p[idx]? = q[idx]?) →
      fill_vals stop tr p j k v = fill_vals stop tr q j k v := by
  intro k
  induction k with
  | zero => intro j v _; rfl
  | succ k ih =>
    intro j v h
    have hj : p[j]? = q[j]? := h j (Nat.le_refl _) (by omega)
    simp only [fill_vals, hj]
    cases q[j]? with
    | none => rfl
    | some w =>
      simp only []
      split
      · rfl
      · cases v.set j (tr w) with
        | none => rfl
        | some v1 =>
          simp only []
          exact ih (j + 1) v1 (fun idx h1 h2 => h idx (by omega) (by omega))

theorem gt_loop_congr (A : FloatOps F) (p q : List Word) :
    ∀ (k j : Nat) (dsg : F), (∀ idx, j ≤ idx → idx < j + k → p[idx]? = q[idx]?) →
      gt_loop A p j k dsg = gt_loop A q j k dsg := by
  intro k
  induction k with
  | zero => intro j dsg _; rfl
  | succ k ih =>
    intro j dsg h
    have hj : p[j]? = q[j]? := h j (Nat.le_refl _) (by omega)
    simp only [gt_loop, hj]
    cases q[j]? with
    | none => rfl
    | some w =>
      simp only []
      split
      · rfl
      · exact ih (j + 1) _ (fun idx h1 h2 => h idx (by omega) (by omega))

theorem for_samples_congr (body body2 : Nat → Option F) :
    ∀ (n s : Nat), (∀ i, s ≤ i → i < s + n → body i = body2 i) →
      for_samples body s n = for_samples body2 s n := by
  intro n
  induction n with
  | zero => intro s _; rfl
  | succ n ih =>
    intro s h
    have h0 : body s = body2 s := h s (Nat.le_refl _) (by omega)
    have hrest := ih (s + 1) (fun i h1 h2 => h i (by omega) (by omega))
    simp only [for_samples, h0, hrest]

theorem window_lt (n nret i j : Nat) (hi : i < n) (hj : j < nret) : i * nret + j < n * nret := by
  have h1 : (i + 1) * nret ≤ n * nret := Nat.mul_le_mul_right _ hi
  have h2 : (i + 1) * nret = i * nret + nret := by ring
  omega

theorem drop_window_congr (b1 b2 : List Word) (n nret i : Nat) (hi : i < n)
    (h : ∀ idx, idx < n * nret → b1[idx]? = b2[idx]?) :
    ∀ idx, 0 ≤ idx → idx < 0 + nret → (b1.drop (i * nret))[idx]? = (b2.drop (i * nret))[idx]? := by
  intro idx _ hidx
  rw [List.getElem?_drop, List.getElem?_drop]
  exact h _ (window_lt n nret i idx hi (by omega))

theorem BRANCH_congr (A : FloatOps F) (is_missing is_vector_end : Word → Bool) (tr : Word → F)
    (b1 b2 : List Word) (n nret : Nat) (h : ∀ idx, idx < n * nret → b1[idx]? = b2[idx]?) :
    BRANCH A is_missing is_vector_end tr b1 n nret
      = BRANCH A is_missing is_vector_end tr b2 n nret := by
  apply for_samples_congr
  intro i _ hi
  rw [fill_vals_congr _ tr (b1.drop (i * nret)) (b2.drop (i * nret)) nret 0 _
    (drop_window_congr b1 b2 n nret i (by omega) h)]

theorem gt_samples_congr (A : FloatOps F) (b1 b2 : List Word) (n nret : Nat)
    (h : ∀ idx, idx < n * nret → b1[idx]? = b2[idx]?) :
    for_samples (fun i => gt_sample A (b1.drop (i * nret)) nret) 0 n
      = for_samples (fun i => gt_sample A (b2.drop (i * nret)) nret) 0 n := by
  apply for_samples_congr
  intro i _ hi
  simp only [gt_sample]
  rw [gt_loop_congr A (b1.drop (i * nret)) (b2.drop (i * nret)) nret 0 _
    (drop_window_congr b1 b2 n nret i (by omega) h)]

theorem cells_le_count (n : Nat) (r1 r2 : Int × List Word)
    (hcells : ∀ idx, idx < r1.1.toNat → r1.2[idx]? = r2.2[idx]?) :
    ∀ idx, idx < n * (r1.1.toNat / n) → r1.2[idx]? = r2.2[idx]? :=
  fun idx hidx => hcells idx (Nat.lt_of_lt_of_le hidx (Nat.mul_div_le _ _))

theorem likelihood_tail_congr (A : FloatOps F) (ty : Int) (n : Nat) (r1 r2 : Int × List Word)
    (trI trR : Word → F) (hcount : r1.1 = r2.1)
    (hcells : ∀ idx, idx < r1.1.toNat → r1.2[idx]? = r2.2[idx]?) :
    (if r1.1 < 0 then some (⟨-1, r1.2, []⟩ : MethodRes F)
      else if n = 0 then none
      else if ty = BCF_HT_INT then
        (BRANCH A int32_is_missing int32_is_vector_end trI r1.2 n (r1.1.toNat / n)).map
          (fun out => ⟨0, r1.2, out⟩)
      else if ty = BCF_HT_REAL then
        (BRANCH A bcf_float_is_missing bcf_float_is_vector_end trR r1.2 n (r1.1.toNat / n)).map
          (fun out => ⟨0, r1.2, out⟩)
      else some ⟨0, r1.2, []⟩).map (fun r => (r.ret, r.out))
    = (if r2.1 < 0 then some (⟨-1, r2.2, []⟩ : MethodRes F)
      else if n = 0 then none
      else if ty = BCF_HT_INT then
        (BRANCH A int32_is_missing int32_is_vector_end trI r2.2 n (r2.1.toNat / n)).map
          (fun out => ⟨0, r2.2, out⟩)
      else if ty = BCF_HT_REAL then
        (BRANCH A bcf_float_is_missing bcf_float_is_vector_end trR r2.2 n (r2.1.toNat / n)).map
          (fun out => ⟨0, r2.2, out⟩)
      else some ⟨0, r2.2, []⟩).map (fun r => (r.ret, r.out)) := by
  have hc := cells_le_count n r1 r2 hcells
  rw [← hcount]
  by_cases hneg : r1.1 < 0
  · simp [hneg]
  · by_cases hn : n = 0
    · simp [hneg, hn]
    · by_cases hI : ty = BCF_HT_INT
      · simp only [hneg, hn, hI, if_false, if_true]
        rw [BRANCH_congr A _ _ trI r1.2 r2.2 n _ hc]
        cases BRANCH A int32_is_missing int32_is_vector_end trI r2.2 n (r1.1.toNat / n) <;> rfl
      · by_cases hR : ty = BCF_HT_REAL
        · simp only [hneg, hn, hI, hR, if_false, if_true]
          rw [BRANCH_congr A _ _ trR r1.2 r2.2 n _ hc]
          cases BRANCH A bcf_float_is_missing bcf_float_is_vector_end trR r2.2 n
            (r1.1.toNat / n) <;> rfl
        · simp [hneg, hn, hI, hR]

theorem gt_tail_congr (A : FloatOps F) (n : Nat) (r1 r2 : Int × List Word)
    (hcount : r1.1 = r2.1)
    (hcells : ∀ idx, idx < r1.1.toNat → r1.2[idx]? = r2.2[idx]?) :
    (if r1.1 < 0 then some (⟨-1, r1.2, []⟩ : MethodRes F)
      else if n = 0 then none
      else
        (for_samples (fun i => gt_sample A (r1.2.drop (i * (r1.1.toNat / n))) (r1.1.toNat / n))
          0 n).map (fun out => ⟨0, r1.2, out⟩)).map (fun r => (r.ret, r.out))
    = (if r2.1 < 0 then some (⟨-1, r2.2, []⟩ : MethodRes F)
      else if n = 0 then none
      else
        (for_samples (fun i => gt_sample A (r2.2.drop (i * (r2.1.toNat / n))) (r2.1.toNat / n))
          0 n).map (fun out => ⟨0, r2.2, out⟩)).map (fun r => (r.ret, r.out)) := by
  have hc := cells_le_count n r1 r2 hcells
  rw [← hcount]
  by_cases hneg : r1.1 < 0
  · simp [hneg]
  · by_cases hn : n = 0
    · simp [hneg, hn]
    · simp only [hneg, hn, if_false]
      rw [gt_samples_congr A r1.2 r2.2 n _ hc]
      cases for_samples (fun i => gt_sample A (r2.2.drop (i * (r1.1.toNat / n)))
        (r1.1.toNat / n)) 0 n <;> rfl

theorem call_congr_result (A : FloatOps F) (acc1 acc2 : Accessor) (st1 st2 : State) (rec : Rec)
    (h : Handler) (hty : st1.pl_type = st2.pl_type)
    (hcount : (h.result acc1 st1 rec).1 = (h.result acc2 st2 rec).1)
    (hcells : ∀ idx, idx < (h.result acc1 st1 rec).1.toNat →
      (h.result acc1 st1 rec).2[idx]? = (h.result acc2 st2 rec).2[idx]?) :
    (h.call A acc1 st1 rec).map (fun r => (r.ret, r.out))
      = (h.call A acc2 st2 rec).map (fun r => (r.ret, r.out)) := by
  cases h
  · simp only [Handler.result, fetch, ← hty] at hcount hcells
    simp only [Handler.call, calc_dosage_PL, ← hty]
    exact likelihood_tail_congr A st1.pl_type rec.n_sample _ _ _ _ hcount hcells
  · simp only [Handler.result, fetch, ← hty] at hcount hcells
    simp only [Handler.call, calc_dosage_GL, ← hty]
    exact likelihood_tail_congr A st1.pl_type rec.n_sample _ _ _ _ hcount hcells
  · simp only [Handler.result] at hcount hcells
    simp only [Handler.call, calc_dosage_GT]
    exact gt_tail_congr A rec.n_sample _ _ hcount hcells

/-- C20. Let `t` be the count and `buf` the buffer the accessor hands to a
method, `nret = t / n_sample`. Every index `i*nret + j` with `i < n_sample` and
`j < nret` is below `t`. The loop of sample `i` (likelihood loop and genotype
loop alike) gives the same result on every buffer that agrees with `buf` on
the cells `i*nret .. i*nret + nret - 1`, so it reads these cells only. Hence
what the method returns and prints is the same for any other call that
reports the same count and the same first `t` cells, whatever the buffer holds
beyond them. -/
theorem reads_within_count (A : FloatOps F) (acc1 acc2 : Accessor) (st1 st2 : State) (rec : Rec)
    (h : Handler) (hty : st1.pl_type = st2.pl_type)
    (hcount : (h.result acc1 st1 rec).1 = (h.result acc2 st2 rec).1)
    (hcells : ∀ idx, idx < (h.result acc1 st1 rec).1.toNat →
      (h.result acc1 st1 rec).2[idx]? = (h.result acc2 st2 rec).2[idx]?) :
    (∀ i j, i < rec.n_sample → j < (h.result acc1 st1 rec).1.toNat / rec.n_sample →
        i * ((h.result acc1 st1 rec).1.toNat / rec.n_sample) + j
          < (h.result acc1 st1 rec).1.toNat)
      ∧ (∀ (i : Nat) (b : List Word) (stop : Word → Bool) (tr : Word → F) (v : Vals F) (d : F),
          (∀ j, j < (h.result acc1 st1 rec).1.toNat / rec.n_sample →
            b[i * ((h.result acc1 st1 rec).1.toNat / rec.n_sample) + j]?
              = (h.result acc1 st1 rec).2[i * ((h.result acc1 st1 rec).1.toNat
                  / rec.n_sample) + j]?) →
          fill_vals stop tr (b.drop (i * ((h.result acc1 st1 rec).1.toNat / rec.n_sample))) 0
              ((h.result acc1 st1 rec).1.toNat / rec.n_sample) v
            = fill_vals stop tr ((h.result acc1 st1 rec).2.drop
                (i * ((h.result acc1 st1 rec).1.toNat / rec.n_sample))) 0
              ((h.result acc1 st1 rec).1.toNat / rec.n_sample) v
          ∧ gt_loop A (b.drop (i * ((h.result acc1 st1 rec).1.toNat / rec.n_sample))) 0
              ((h.result acc1 st1 rec).1.toNat / rec.n_sample) d
            = gt_loop A ((h.result acc1 st1 rec).2.drop
                (i * ((h.result acc1 st1 rec).1.toNat / rec.n_sample))) 0
              ((h.result acc1 st1 rec).1.toNat / rec.n_sample) d)
      ∧ (h.call A acc1 st1 rec).map (fun r => (r.ret, r.out))
          = (h.call A acc2 st2 rec).map (fun r => (r.ret, r.out)) := by
  refine ⟨?_, ?_, call_congr_result A acc1 acc2 st1 st2 rec h hty hcount hcells⟩
  · intro i j hi hj
    exact Nat.lt_of_lt_of_le (window_lt _ _ i j hi hj) (Nat.mul_div_le _ _)
  · intro i b stop tr v d hb
    have hw : ∀ idx, 0 ≤ idx → idx < 0 + (h.result acc1 st1 rec).1.toNat / rec.n_sample →
        (b.drop (i * ((h.result acc1 st1 rec).1.toNat / rec.n_sample)))[idx]?
          = ((h.result acc1 st1 rec).2.drop
              (i * ((h.result acc1 st1 rec).1.toNat / rec.n_sample)))[idx]? := by
      intro idx _ hidx
      rw [List.getElem?_drop, List.getElem?_drop]
      exact hb idx (by omega)
    exact ⟨fill_vals_congr stop tr _ _ _ 0 v hw, gt_loop_congr A _ _ _ 0 d hw⟩

/-- C20 on a concrete input: `calc_dosage_PL` on a two-sample record, once with an
empty buffer and once with a buffer holding eight cells of an earlier record. -/
theorem reads_within_count_witness :
    (∀ i j, i < rec_pl2.n_sample → j < (Handler.PL.result htslib st_std rec_pl2).1.toNat / rec_pl2.n_sample →
        i * ((Handler.PL.result htslib st_std rec_pl2).1.toNat / rec_pl2.n_sample) + j
          < (Handler.PL.result htslib st_std rec_pl2).1.toNat)
      ∧ (∀ (i : Nat) (b : List Word) (stop : Word → Bool) (tr : Word → Int) (v : Vals Int) (d : Int),
          (∀ j, j < (Handler.PL.result htslib st_std rec_pl2).1.toNat / rec_pl2.n_sample →
            b[i * ((Handler.PL.result htslib st_std rec_pl2).1.toNat / rec_pl2.n_sample) + j]?
              = (Handler.PL.result htslib st_std rec_pl2).2[i * ((Handler.PL.result htslib st_std rec_pl2).1.toNat
                  / rec_pl2.n_sample) + j]?) →
          fill_vals stop tr (b.drop (i * ((Handler.PL.result htslib st_std rec_pl2).1.toNat / rec_pl2.n_sample))) 0
              ((Handler.PL.result htslib st_std rec_pl2).1.toNat / rec_pl2.n_sample) v
            = fill_vals stop tr ((Handler.PL.result htslib st_std rec_pl2).2.drop
                (i * ((Handler.PL.result htslib st_std rec_pl2).1.toNat / rec_pl2.n_sample))) 0
              ((Handler.PL.result htslib st_std rec_pl2).1.toNat / rec_pl2.n_sample) v
          ∧ gt_loop milli (b.drop (i * ((Handler.PL.result htslib st_std rec_pl2).1.toNat / rec_pl2.n_sample))) 0
              ((Handler.PL.result htslib st_std rec_pl2).1.toNat / rec_pl2.n_sample) d
            = gt_loop milli ((Handler.PL.result htslib st_std rec_pl2).2.drop
                (i * ((Handler.PL.result htslib st_std rec_pl2).1.toNat / rec_pl2.n_sample))) 0
              ((Handler.PL.result htslib st_std rec_pl2).1.toNat / rec_pl2.n_sample) d)
      ∧ (Handler.PL.call milli htslib st_std rec_pl2).map (fun r => (r.ret, r.out))
          = (Handler.PL.call milli htslib st_std_used rec_pl2).map (fun r => (r.ret, r.out)) :=
  reads_within_count milli htslib htslib st_std st_std_used rec_pl2 Handler.PL rfl
    (by decide) (by decide)

/-! ## No leak from the buffer of an earlier call -/

theorem htslib_clean : htslib.Clean := by
  constructor
  · intro hdr rec tag ty
    simp only [htslib, bcf_get_format_values]
    cases hdr.fmt_type tag with
    | none => exact Or.inl (fun _ => by simp)
    | some t =>
      by_cases ht : t ≠ ty
      · exact Or.inl (fun _ => by simp [ht])
      · cases rec.fields.lookup tag with
        | none => exact Or.inl (fun _ => by simp [ht])
        | some vals => exact Or.inr ⟨vals, fun _ => by simp [ht]⟩
  · intro hdr rec
    simp only [htslib, bcf_get_genotypes]
    cases hdr.fmt_type "GT" with
    | none => exact Or.inl (fun _ => by simp)
    | some t =>
      by_cases ht : t ≠ BCF_HT_STR
      · exact Or.inl (fun _ => by simp [ht])
      · cases rec.fields.lookup "GT" with
        | none => exact Or.inl (fun _ => by simp [ht])
        | some vals => exact Or.inr ⟨vals, fun _ => by simp [ht]⟩

theorem store_getElem? (vals b1 b2 : List Word) (idx : Nat) (h : idx < vals.length) :
    (store vals b1)[idx]? = (store vals b2)[idx]? := by
  simp only [store]
  rw [List.getElem?_append_left h, List.getElem?_append_left h]

theorem clean_result (acc : Accessor) (hc : acc.Clean) (h : Handler) (st : State) (rec : Rec) :
    (∀ buf, (h.result acc { st with buf := buf } rec).1 < 0)
      ∨ ∃ vals, ∀ buf,
          h.result acc { st with buf := buf } rec = ((vals.length : Int), store vals buf) := by
  cases h
  · exact hc.1 st.in_hdr rec "PL" st.pl_type
  · exact hc.1 st.in_hdr rec "GL" st.pl_type
  · exact hc.2 st.in_hdr rec

theorem nret_eq_result (acc : Accessor) (h : Handler) (st : State) (rec : Rec) :
    h.nret acc st.in_hdr st.pl_type rec st.buf = (h.result acc st rec).1 := by
  cases h <;> rfl

theorem call_clean (A : FloatOps F) (acc : Accessor) (hc : acc.Clean) (h : Handler) (st : State)
    (rec : Rec) (b1 b2 : List Word) :
    (h.call A acc { st with buf := b1 } rec).map (fun r => (r.ret, r.out))
      = (h.call A acc { st with buf := b2 } rec).map (fun r => (r.ret, r.out)) := by
  rcases clean_result acc hc h st rec with hneg | ⟨vals, hv⟩
  · obtain ⟨c1, h1⟩ := call_of_nret_neg A acc h { st with buf := b1 } rec
      (by rw [nret_eq_result]; exact hneg b1)
    obtain ⟨c2, h2⟩ := call_of_nret_neg A acc h { st with buf := b2 } rec
      (by rw [nret_eq_result]; exact hneg b2)
    rw [h1, h2]
    rfl
  · apply call_congr_result A acc acc { st with buf := b1 } { st with buf := b2 } rec h rfl
    · rw [hv b1, hv b2]
    · intro idx hidx
      rw [hv b1] at hidx ⊢
      rw [hv b2]
      exact store_getElem? vals b1 b2 idx (by simpa using hidx)

theorem run_handlers_clean (A : FloatOps F) (acc : Accessor) (hc : acc.Clean) (rec : Rec)
    (st : State) :
    ∀ (hs : List Handler) (b1 b2 : List Word),
      (run_handlers A acc rec hs { st with buf := b1 }).map (fun l => (l.found, l.out, l.called))
        = (run_handlers A acc rec hs { st with buf := b2 }).map
            (fun l => (l.found, l.out, l.called)) := by
  intro hs
  induction hs with
  | nil => intro b1 b2; rfl
  | cons h hs ih =>
    intro b1 b2
    have hcall := call_clean A acc hc h st rec b1 b2
    simp only [run_handlers]
    cases h1 : h.call A acc { st with buf := b1 } rec with
    | none =>
      cases h2 : h.call A acc { st with buf := b2 } rec with
      | none => rfl
      | some r2 => rw [h1, h2] at hcall; simp at hcall
    | some r1 =>
      cases h2 : h.call A acc { st with buf := b2 } rec with
      | none => rw [h1, h2] at hcall; simp at hcall
      | some r2 =>
        rw [h1, h2] at hcall
        simp only [Option.map_some', Option.some.injEq, Prod.mk.injEq] at hcall
        obtain ⟨hret, hout⟩ := hcall
        simp only [hret, hout]
        by_cases h0 : r2.ret = 0
        · simp [h0]
        · simp only [h0, if_false]
          have := ih r1.buf r2.buf
          cases g1 : run_handlers A acc rec hs { st with buf := r1.buf } with
          | none =>
            cases g2 : run_handlers A acc rec hs { st with buf := r2.buf } with
            | none => rfl
            | some l2 => rw [g1, g2] at this; simp at this
          | some l1 =>
            cases g2 : run_handlers A acc rec hs { st with buf := r2.buf } with
            | none => rw [g1, g2] at this; simp at this
            | some l2 =>
              rw [g1, g2] at this
              simp only [Option.map_some', Option.some.injEq, Prod.mk.injEq] at this
              simp [this.1, this.2.1, this.2.2]

theorem process_clean (A : FloatOps F) (acc : Accessor) (hc : acc.Clean) (st : State) (rec : Rec)
    (b1 b2 : List Word) :
    (process A acc { st with buf := b1 } rec).map (fun p => (p.row, p.called))
      = (process A acc { st with buf := b2 } rec).map (fun p => (p.row, p.called)) := by
  by_cases h1 : rec.n_allele = 1
  · simp [process, h1]
  · have := run_handlers_clean A acc hc rec st st.handlers b1 b2
    simp only [process, h1, if_false]
    cases g1 : run_handlers A acc rec st.handlers { st with buf := b1 } with
    | none =>
      cases g2 : run_handlers A acc rec st.handlers { st with buf := b2 } with
      | none => rfl
      | some l2 => rw [g1, g2] at this; simp at this
    | some l1 =>
      cases g2 : run_handlers A acc rec st.handlers { st with buf := b2 } with
      | none => rw [g1, g2] at this; simp at this
      | some l2 =>
        rw [g1, g2] at this
        simp only [Option.map_some', Option.some.injEq, Prod.mk.injEq] at this
        simp [this.1, this.2.1, this.2.2]

theorem process_st (A : FloatOps F) (acc : Accessor) (st : State) (rec : Rec) (p : ProcRes F)
    (h : process A acc st rec = some p) : p.st = { st with buf := p.st.buf } := by
  by_cases h1 : rec.n_allele = 1
  · simp only [process, h1, if_true, Option.some.injEq] at h
    rw [← h]
  · simp only [process, h1, if_false] at h
    cases g : run_handlers A acc rec st.handlers st with
    | none => rw [g] at h; simp at h
    | some l =>
      rw [g] at h
      simp only [Option.some.injEq] at h
      rw [← h]

/-- C15. With an accessor that follows the buffer protocol of htslib (a call
either fails or leaves the decoded values at the start of the buffer, in both
cases regardless of what the buffer held), the row `process` emits for a
record and the methods it calls do not depend on the content of the decode
buffer left by earlier calls. In particular, when `process` has emitted a row
for a record, running it again on the same record with the globals it left
emits the same row. -/
theorem process_restartable (A : FloatOps F) (acc : Accessor) (st : State) (rec : Rec)
    (hc : acc.Clean) :
    (∀ b1 b2 : List Word,
        (process A acc { st with buf := b1 } rec).map (fun p => (p.row, p.called))
          = (process A acc { st with buf := b2 } rec).map (fun p => (p.row, p.called)))
      ∧ (∀ p1, process A acc st rec = some p1 →
          ∃ p2, process A acc p1.st rec = some p2 ∧ p2.row = p1.row ∧ p2.called = p1.called) := by
  refine ⟨process_clean A acc hc st rec, ?_⟩
  intro p1 hp1
  have hst := process_st A acc st rec p1 hp1
  have key := process_clean A acc hc st rec p1.st.buf st.buf
  have hself : ({ st with buf := st.buf } : State) = st := rfl
  rw [← hst, hself, hp1] at key
  cases g : process A acc p1.st rec with
  | none => rw [g] at key; simp at key
  | some p2 =>
    rw [g] at key
    simp only [Option.map_some', Option.some.injEq, Prod.mk.injEq] at key
    exact ⟨p2, rfl, key.1, key.2⟩

/-- C15 on a concrete input: the usual header and default tags, the two-sample
record with PL, read through htslib. -/
theorem process_restartable_witness :
    (∀ b1 b2 : List Word,
        (process milli htslib { st_std with buf := b1 } rec_pl2).map (fun p => (p.row, p.called))
          = (process milli htslib { st_std with buf := b2 } rec_pl2).map
              (fun p => (p.row, p.called)))
      ∧ (∀ p1, process milli htslib st_std rec_pl2 = some p1 →
          ∃ p2, process milli htslib p1.st rec_pl2 = some p2 ∧ p2.row = p1.row
            ∧ p2.called = p1.called) :=
  process_restartable milli htslib st_std rec_pl2 htslib_clean

/-- The row of the two-sample record is the same after an earlier record left
eight cells in the buffer. -/
theorem process_used_buffer_example :
    (process milli htslib st_std rec_pl2).map (fun p => p.row.dosages)
        = some [milli.one, milli.negOne]
      ∧ (process milli htslib st_std_used rec_pl2).map (fun p => p.row.dosages)
        = some [milli.one, milli.negOne] := by
  decide

/-! ## Running `init` again -/

theorem init_loop_appends (hdr : Hdr) :
    ∀ (tags : List String), ∃ (added : List Handler) (m : Option Msg),
      ∀ st : State, st.in_hdr = hdr →
        (init_loop tags st).1.handlers = st.handlers ++ added ∧ (init_loop tags st).2 = m := by
  intro tags
  induction tags with
  | nil => exact ⟨[], none, fun st _ => by simp [init_loop]⟩
  | cons t ts ih =>
    obtain ⟨added, m, hrec⟩ := ih
    by_cases hk : known_tag t = true
    · by_cases hok : numeric_ok hdr t = true
      · have ht : t = "PL" ∨ t = "GL" ∨ t = "GT" := by
          simpa [known_tag, or_assoc] using hk
        rcases ht with h | h | h
        · subst h
          cases hty : hdr.fmt_type "PL" with
          | none =>
            refine ⟨added, m, fun st hst => ?_⟩
            subst hst
            simpa [init_loop, hty] using hrec st rfl
          | some ty =>
            have hnum : ¬ (ty ≠ BCF_HT_INT ∧ ty ≠ BCF_HT_REAL) := by
              simp [numeric_ok, hty] at hok
              tauto
            refine ⟨Handler.PL :: added, m, fun st hst => ?_⟩
            subst hst
            have := hrec { st with pl_type := ty, handlers := st.handlers ++ [Handler.PL] } rfl
            simp only [init_loop, if_true, hty]
            rw [if_neg hnum]
            simpa using this
        · subst h
          have hne : ¬ ("GL" = "PL") := by decide
          cases hty : hdr.fmt_type "GL" with
          | none =>
            refine ⟨added, m, fun st hst => ?_⟩
            subst hst
            simpa [init_loop, hty] using hrec st rfl
          | some ty =>
            have hnum : ¬ (ty ≠ BCF_HT_INT ∧ ty ≠ BCF_HT_REAL) := by
              simp [numeric_ok, hty] at hok
              tauto
            refine ⟨Handler.GL :: added, m, fun st hst => ?_⟩
            subst hst
            have := hrec { st with gl_type := ty, handlers := st.handlers ++ [Handler.GL] } rfl
            simp only [init_loop, hne, if_false, if_true, hty]
            rw [if_neg hnum]
            simpa using this
        · subst h
          refine ⟨Handler.GT :: added, m, fun st hst => ?_⟩
          subst hst
          have := hrec { st with handlers := st.handlers ++ [Handler.GT] } rfl
          simpa [init_loop] using this
      · have hb : numeric_ok hdr t = false := by
          cases h : numeric_ok hdr t
          · rfl
          · exact absurd h hok
        refine ⟨[], some (Msg.expected_numeric t), fun st hst => ?_⟩
        subst hst
        obtain ⟨hGT, ty, hty, hnum⟩ := numeric_ok_false_type _ _ hb
        have hmsg := (init_loop_known_bad t ts st hk hb).2
        have ht : t = "PL" ∨ t = "GL" ∨ t = "GT" := by
          simpa [known_tag, or_assoc] using hk
        refine ⟨?_, hmsg⟩
        rcases ht with h | h | h
        · subst h
          simp only [init_loop, if_true, hty]
          rw [if_pos hnum]
          simp
        · subst h
          have hne : ¬ ("GL" = "PL") := by decide
          simp only [init_loop, hne, if_false, if_true, hty]
          rw [if_pos hnum]
          simp
        · exact absurd h hGT
    · refine ⟨[], some (Msg.no_handler t), fun st _ => ?_⟩
      have h3 : ¬ t = "PL" ∧ ¬ t = "GL" ∧ ¬ t = "GT" := by
        simp [known_tag] at hk
        exact ⟨hk.1.1, hk.1.2, hk.2⟩
      simp [init_loop, h3.1, h3.2.1, h3.2.2]

theorem init_st_eq (st : State) (opts : Option (List String)) (hdr : Hdr) :
    (init st opts hdr).st = (init_loop (config_get_list opts) { st with in_hdr := hdr }).1
      ∧ (init st opts hdr).ret
          = (if (init_loop (config_get_list opts) { st with in_hdr := hdr }).2 = none then 1
            else -1) := by
  simp only [init]
  split <;> simp_all

/-- C16, the claim as stated fails: after `init` with the default tags against
the usual header the registry is PL, GL, GT; running `init` again on the
globals it left makes it PL, GL, GT, PL, GL, GT. -/
theorem init_twice_doubles :
    (init State.initial none hdr_std).st.handlers = [Handler.PL, Handler.GL, Handler.GT]
      ∧ (init (init State.initial none hdr_std).st none hdr_std).st.handlers
          = [Handler.PL, Handler.GL, Handler.GT, Handler.PL, Handler.GL, Handler.GT]
      ∧ (init (init State.initial none hdr_std).st none hdr_std).st.handlers
          ≠ (init State.initial none hdr_std).st.handlers := by
  decide

/-- C16, amended. Running `init` with the same tag list against the same header
resolves the same methods in the same order and returns the same value every
time, and appends them to the registry it finds: from any globals the
registry becomes the previous registry followed by the one-run registry, so
after a second run it is the one-run registry followed by itself. -/
theorem init_appends (st : State) (opts : Option (List String)) (hdr : Hdr) :
    (init st opts hdr).st.handlers = st.handlers ++ (init State.initial opts hdr).st.handlers
      ∧ (init st opts hdr).ret = (init State.initial opts hdr).ret
      ∧ (init (init State.initial opts hdr).st opts hdr).st.handlers
          = (init State.initial opts hdr).st.handlers ++ (init State.initial opts hdr).st.handlers
      ∧ (init (init State.initial opts hdr).st opts hdr).ret = (init State.initial opts hdr).ret := by
  obtain ⟨added, m, hrec⟩ := init_loop_appends hdr (config_get_list opts)
  have key : ∀ s : State, (init s opts hdr).st.handlers = s.handlers ++ added
      ∧ (init s opts hdr).ret = (if m = none then 1 else -1) := by
    intro s
    obtain ⟨h1, h2⟩ := init_st_eq s opts hdr
    obtain ⟨h3, h4⟩ := hrec { s with in_hdr := hdr } rfl
    rw [h1, h2, h3, h4]
    exact ⟨rfl, rfl⟩
  have h0 := key State.initial
  have hadded : (init State.initial opts hdr).st.handlers = added := by
    rw [h0.1]; simp [State.initial]
  refine ⟨?_, ?_, ?_, ?_⟩
  · rw [(key st).1, hadded]
  · rw [(key st).2, h0.2]
  · rw [(key _).1, hadded]
  · rw [(key _).2, h0.2]

/-! ## More than three likelihood values -/

theorem Vals.set_out_of_range (v : Vals F) (j : Nat) (x : F) (h : 3 ≤ j) : v.set j x = none := by
  rcases j with _ | _ | _ | j
  · omega
  · omega
  · omega
  · rfl

theorem fill_vals_fourth_value (stop : Word → Bool) (tr : Word → F) (a b c d : Word)
    (rest : List Word) (k : Nat) (v : Vals F)
    (ha : stop a = false) (hb : stop b = false) (hc : stop c = false) (hd : stop d = false) :
    fill_vals stop tr (a :: b :: c :: d :: rest) 0 (k + 4) v = none := by
  simp [fill_vals, Vals.set, ha, hb, hc, hd]

/-- C17, the code departs from the claim. A record with six PL values for its
sample (Integer storage), and a record with four GL values (PL and GL both
declared Float): the inner loop runs `j` up to `nret - 1` and the fourth value
is stored with `Vals.set` at index 3, outside `float vals[3]`, so the
behaviour of `calc_dosage_PL` and `calc_dosage_GL` is undefined. The first
three values alone would give the dosage `1.0` for the GL record. -/
theorem likelihood_store_past_vals :
    (Handler.PL.result htslib st_std rec_pl6).1 = 6
      ∧ rec_pl6.n_sample = 1
      ∧ (∀ (v : Vals Int) (x : Int), v.set 3 x = none)
      ∧ (fill_vals int32_is_stop (phred_int milli) [10, 0, 20, 30, 40, 50] 0 6
            ⟨milli.zero, milli.zero, milli.zero⟩).map (dosage_of_vals milli) = none
      ∧ (calc_dosage_PL milli htslib st_std rec_pl6).map (fun r => (r.ret, r.out)) = none
      ∧ (Handler.GL.result htslib (init State.initial none hdr_ff).st rec_gl4).1 = 4
      ∧ (calc_dosage_GL milli htslib (init State.initial none hdr_ff).st rec_gl4).map
          (fun r => (r.ret, r.out)) = none
      ∧ likelihood_dosage_spec milli float_is_stop (loglik_real milli) ([0, 0, 0, 0].take 3)
          = milli.one := by
  refine ⟨by decide, by decide, fun v x => rfl, by decide, by decide, by decide, by decide,
    by decide⟩

/-! ## Alleles counted by the genotype method -/

/-- C18, the code departs from the claim. The genotype `0|.` is encoded as the
entries 2 and 1 (reference allele, then a phased missing allele). The entry 1
is none of the three stop values and `bcf_gt_allele(1)` is -1, which is
non-zero, so `calc_dosage_GT` adds one for it and prints `1.0`, although no
entry carries a non-reference allele. For `0/1` the count and the dosage
agree. -/
theorem calc_dosage_GT_counts_phased_missing :
    rec_gt_phased_missing.fields.lookup "GT" = some [bcf_gt_unphased 0, 1]
      ∧ gt_is_stop 1 = false
      ∧ bcf_gt_allele (toInt32 1) = -1
      ∧ nonref_count [bcf_gt_unphased 0, 1] = 0
      ∧ (calc_dosage_GT milli htslib st_std rec_gt_phased_missing).map
          (fun r => (r.ret, r.out)) = some (0, [milli.one])
      ∧ nonref_count [bcf_gt_unphased 0, bcf_gt_unphased 1] = 1
      ∧ gt_sample milli [bcf_gt_unphased 0, bcf_gt_unphased 1] 2 = some milli.one := by
  decide

/-! ## What the likelihood sentinel tells -/

theorem likelihood_dosage_spec_eq (A : FloatOps F) (stop : Word → Bool) (tr : Word → F)
    (grp : List Word) :
    likelihood_dosage_spec A stop tr grp
      = if A.isZero (likelihood_sum A stop tr grp) then A.negOne
        else likelihood_quotient A stop tr grp := rfl

/-- C19, the claim as stated fails: a sample with PL `.,0,0` carries two genuine
values after the missing one, and `calc_dosage_PL` prints `-1.0` for it, since
the loop stops at the first missing value. -/
theorem likelihood_sentinel_with_genuine_values :
    rec_pl_first_missing.fields.lookup "PL" = some [2147483648, 0, 0]
      ∧ int32_is_stop 2147483648 = true
      ∧ int32_is_stop 0 = false
      ∧ (calc_dosage_PL milli htslib st_std rec_pl_first_missing).map
          (fun r => (r.ret, r.out)) = some (0, [milli.negOne]) := by
  decide

/-- C19, amended. Let `h` be `calc_dosage_PL` or `calc_dosage_GL`, run on a
record the accessor decodes, with the storage type Integer or Float and no
sample holding more than three values before its first sentinel. For every
sample the method prints `-1.0` when the sum `L0+L1+L2`, taken over the values
before the first missing or vector-end value, compares equal to zero, and the
quotient `(L1+2*L2)/(L0+L1+L2)` otherwise. So a sample whose first value is
missing or vector-end gets `-1.0` whatever follows it. -/
theorem likelihood_sentinel_zero_sum (A : FloatOps F) (acc : Accessor) (st : State) (rec : Rec)
    (h : Handler) (hh : h = Handler.PL ∨ h = Handler.GL)
    (hn : 0 < rec.n_sample)
    (hty : st.pl_type = BCF_HT_INT ∨ st.pl_type = BCF_HT_REAL)
    (hret : 0 ≤ (fetch acc st rec h.tag).1)
    (hbuf : (fetch acc st rec h.tag).1.toNat ≤ (fetch acc st rec h.tag).2.length)
    (hpre : ∀ k, k < rec.n_sample →
      ((group (fetch acc st rec h.tag).2 ((fetch acc st rec h.tag).1.toNat / rec.n_sample)
        k).takeWhile (fun x => !stop_of_type st.pl_type x)).length ≤ 3) :
    ∃ out, h.call A acc st rec = some ⟨0, (fetch acc st rec h.tag).2, out⟩
      ∧ out.length = rec.n_sample
      ∧ ∀ k, k < rec.n_sample →
          (A.isZero (likelihood_sum A (stop_of_type st.pl_type) (h.transform A st.pl_type)
              (group (fetch acc st rec h.tag).2
                ((fetch acc st rec h.tag).1.toNat / rec.n_sample) k)) = true →
            out[k]? = some A.negOne)
          ∧ (A.isZero (likelihood_sum A (stop_of_type st.pl_type) (h.transform A st.pl_type)
              (group (fetch acc st rec h.tag).2
                ((fetch acc st rec h.tag).1.toNat / rec.n_sample) k)) = false →
            out[k]? = some (likelihood_quotient A (stop_of_type st.pl_type)
              (h.transform A st.pl_type)
              (group (fetch acc st rec h.tag).2
                ((fetch acc st rec h.tag).1.toNat / rec.n_sample) k)))
          ∧ (SmallExact A → ∀ w,
              (group (fetch acc st rec h.tag).2
                ((fetch acc st rec h.tag).1.toNat / rec.n_sample) k).head? = some w →
              stop_of_type st.pl_type w = true → out[k]? = some A.negOne) := by
  refine ⟨_, likelihood_call_eq A acc st rec h hh hn hty hret hbuf hpre, by simp, ?_⟩
  intro k hk
  rw [getElem?_map_range _ _ k hk, likelihood_dosage_spec_eq]
  refine ⟨?_, ?_, ?_⟩
  · intro hz
    rw [if_pos hz]
  · intro hz
    rw [if_neg (by simp [hz])]
  · intro hA w hw hs
    rw [← likelihood_dosage_spec_eq, likelihood_dosage_spec_first_stop A hA _ _ _ w hw hs]

/-- C19 (amended) on a concrete input: `calc_dosage_PL` on the sample with PL
`.,0,0`. -/
theorem likelihood_sentinel_zero_sum_witness :
    ∃ out, Handler.PL.call milli htslib st_std rec_pl_first_missing = some ⟨0, (fetch htslib st_std rec_pl_first_missing Handler.PL.tag).2, out⟩
      ∧ out.length = rec_pl_first_missing.n_sample
      ∧ ∀ k, k < rec_pl_first_missing.n_sample →
          (milli.isZero (likelihood_sum milli (stop_of_type st_std.pl_type) (Handler.PL.transform milli st_std.pl_type)
              (group (fetch htslib st_std rec_pl_first_missing Handler.PL.tag).2
                ((fetch htslib st_std rec_pl_first_missing Handler.PL.tag).1.toNat / rec_pl_first_missing.n_sample) k)) = true →
            out[k]? = some milli.negOne)
          ∧ (milli.isZero (likelihood_sum milli (stop_of_type st_std.pl_type) (Handler.PL.transform milli st_std.pl_type)
              (group (fetch htslib st_std rec_pl_first_missing Handler.PL.tag).2
                ((fetch htslib st_std rec_pl_first_missing Handler.PL.tag).1.toNat / rec_pl_first_missing.n_sample) k)) = false →
            out[k]? = some (likelihood_quotient milli (stop_of_type st_std.pl_type)
              (Handler.PL.transform milli st_std.pl_type)
              (group (fetch htslib st_std rec_pl_first_missing Handler.PL.tag).2
                ((fetch htslib st_std rec_pl_first_missing Handler.PL.tag).1.toNat / rec_pl_first_missing.n_sample) k)))
          ∧ (SmallExact milli → ∀ w,
              (group (fetch htslib st_std rec_pl_first_missing Handler.PL.tag).2
                ((fetch htslib st_std rec_pl_first_missing Handler.PL.tag).1.toNat / rec_pl_first_missing.n_sample) k).head? = some w →
              stop_of_type st_std.pl_type w = true → out[k]? = some milli.negOne) :=
  likelihood_sentinel_zero_sum milli htslib st_std rec_pl_first_missing Handler.PL (Or.inl rfl)
    (by decide) (by decide) (by decide) (by decide) (by decide)

/-! ## Values of the genotype method on diploid calls -/

theorem gt_sample_diploid (A : FloatOps F) (hA : SmallExact A) (ptr : List Word) (nret : Nat)
    (h2 : nret ≤ 2) (hlen : nret ≤ ptr.length) :
    ∃ x, gt_sample A ptr nret = some x
      ∧ (x = A.negOne ∨ x = A.zero ∨ x = A.one ∨ x = A.two) := by
  rcases nret with _ | _ | _ | n
  · exact ⟨A.negOne, by simp [gt_sample, gt_loop], Or.inl rfl⟩
  · rcases ptr with _ | ⟨a, r⟩
    · simp at hlen
    · by_cases ha : gt_is_stop a = true
      · exact ⟨A.negOne, by simp [gt_sample, gt_loop, ha], Or.inl rfl⟩
      · by_cases hx : bcf_gt_allele (toInt32 a) = 0
        · exact ⟨A.zero, by simp [gt_sample, gt_loop, ha, hx], Or.inr (Or.inl rfl)⟩
        · exact ⟨A.one, by simp [gt_sample, gt_loop, ha, hx, hA.add_zero_one],
            Or.inr (Or.inr (Or.inl rfl))⟩
  · rcases ptr with _ | ⟨a, _ | ⟨b, r⟩⟩
    · simp at hlen
    · simp at hlen
    · by_cases ha : gt_is_stop a = true
      · exact ⟨A.negOne, by simp [gt_sample, gt_loop, ha], Or.inl rfl⟩
      · by_cases hx : bcf_gt_allele (toInt32 a) = 0 <;>
          by_cases hb : gt_is_stop b = true <;>
          by_cases hy : bcf_gt_allele (toInt32 b) = 0
        · exact ⟨A.zero, by simp [gt_sample, gt_loop, ha, hx, hb], Or.inr (Or.inl rfl)⟩
        · exact ⟨A.zero, by simp [gt_sample, gt_loop, ha, hx, hb], Or.inr (Or.inl rfl)⟩
        · exact ⟨A.zero, by simp [gt_sample, gt_loop, ha, hx, hb, hy], Or.inr (Or.inl rfl)⟩
        · exact ⟨A.one, by simp [gt_sample, gt_loop, ha, hx, hb, hy, hA.add_zero_one],
            Or.inr (Or.inr (Or.inl rfl))⟩
        · exact ⟨A.one, by simp [gt_sample, gt_loop, ha, hx, hb, hA.add_zero_one],
            Or.inr (Or.inr (Or.inl rfl))⟩
        · exact ⟨A.one, by simp [gt_sample, gt_loop, ha, hx, hb, hA.add_zero_one],
            Or.inr (Or.inr (Or.inl rfl))⟩
        · exact ⟨A.one, by simp [gt_sample, gt_loop, ha, hx, hb, hy, hA.add_zero_one],
            Or.inr (Or.inr (Or.inl rfl))⟩
        · exact ⟨A.two, by simp [gt_sample, gt_loop, ha, hx, hb, hy, hA.add_zero_one,
            hA.add_one_one], Or.inr (Or.inr (Or.inr rfl))⟩
  · omega

/-! ## The range of the dosage values -/

theorem milli_ext_small_exact : SmallExact milli_ext := by
  constructor <;> decide

theorem ediv_range (n s : Int) (h0 : 0 ≤ n) (h1 : n ≤ 2 * s) (hs : s ≠ 0) :
    0 ≤ n * 1000 / s ∧ n * 1000 / s ≤ 2000 := by
  have hpos : 0 < s := by omega
  constructor
  · exact Int.ediv_nonneg (by omega) (by omega)
  · apply Int.ediv_le_of_le_mul hpos
    nlinarith

theorem milli_ext_range_laws : RangeLaws milli_ext Ext.val Ext.isFin where
  fin_zero := rfl
  val_zero := rfl
  fin_one := rfl
  fin_two := rfl
  val_one := by decide
  isZero_iff := by
    intro x hx
    cases x with
    | fin m =>
      simp only [milli_ext, Ext.val]
      constructor
      · intro h
        have := of_decide_eq_true h
        exact Ext.fin.inj this
      · intro h
        subst h
        rfl
    | inf s => simp [Ext.isFin] at hx
    | nan => simp [Ext.isFin] at hx
  add_ge_right := by
    intro a b ha hb _ h0
    cases a <;> cases b <;> simp [Ext.isFin] at ha hb
    simp only [milli_ext, Ext.add, Ext.val] at h0 ⊢
    omega
  mul_two := by
    intro a ha _
    cases a <;> simp [Ext.isFin] at ha
    simp only [milli_ext, Ext.mul, Ext.val]
    omega
  add_le_double := by
    intro a b c d ha hb hc hd _ _ h
    cases a <;> cases b <;> cases c <;> cases d <;> simp [Ext.isFin] at ha hb hc hd
    simp only [milli_ext, Ext.add, Ext.val] at h ⊢
    omega
  div_range := by
    intro n s hn hs h0 h1 h2
    cases n <;> cases s <;> simp [Ext.isFin] at hn hs
    rename_i a b
    simp only [Ext.val] at h0 h1 h2
    have := ediv_range a b h0 h1 h2
    simp only [milli_ext, Ext.div, h2, if_false, Ext.isFin, Ext.val]
    exact ⟨trivial, this.1, this.2⟩

/-- C14, the claim as stated fails: with the usual header and default tags, a
diploid record whose PL is `0,0,-10000` makes `exp(-0.1*-10000)` overflow to
infinity; the sum is infinite, `(1 + 2*inf)/inf` is NaN, and the value
`process` emits is neither `-1.0` nor a number in `[0, 2]`. -/
theorem process_emits_nan :
    rec_pl_overflow.fields.lookup "PL" = some [0, 0, 4294957296]
      ∧ toInt32 4294957296 = -10000
      ∧ milli_ext.exp (milli_ext.mul milli_ext.negTenth (milli_ext.ofInt (-10000)))
          = Ext.inf false
      ∧ (process milli_ext htslib st_std rec_pl_overflow).map (fun p => p.row.dosages)
          = some [Ext.nan]
      ∧ ¬ in_range milli_ext Ext.val Ext.isFin Ext.nan := by
  refine ⟨by decide, by decide, by decide, by decide, ?_⟩
  intro h
  rcases h with h | h
  · exact absurd h (by decide)
  · exact absurd h.1 (by decide)

theorem likelihood_spec_in_range (A : FloatOps F) (val : F → Int) (fin : F → Bool)
    (hR : RangeLaws A val fin) (stop : Word → Bool) (tr : Word → F) (grp : List Word)
    (hf : finite3 A val fin stop tr grp) :
    in_range A val fin (likelihood_dosage_spec A stop tr grp) := by
  rw [likelihood_dosage_spec_eq]
  obtain ⟨f0, f1, f2, n0, n1, n2, fu, fs, fm, fn⟩ := hf
  by_cases hz : A.isZero (likelihood_sum A stop tr grp) = true
  · rw [if_pos hz]
    exact Or.inl rfl
  · rw [if_neg hz]
    right
    have hs0 : val (likelihood_sum A stop tr grp) ≠ 0 := by
      intro h0
      exact hz ((hR.isZero_iff _ fs).2 h0)
    have hu : val (likelihood_L A stop tr grp 1)
        ≤ val (A.add (likelihood_L A stop tr grp 0) (likelihood_L A stop tr grp 1)) :=
      hR.add_ge_right _ _ f0 f1 fu n0
    have hm : val (A.mul A.two (likelihood_L A stop tr grp 2))
        = 2 * val (likelihood_L A stop tr grp 2) := hR.mul_two _ f2 fm
    have hn0 : val (A.mul A.two (likelihood_L A stop tr grp 2))
        ≤ val (A.add (likelihood_L A stop tr grp 1)
            (A.mul A.two (likelihood_L A stop tr grp 2))) :=
      hR.add_ge_right _ _ f1 fm fn n1
    have hle : val (A.add (likelihood_L A stop tr grp 1)
          (A.mul A.two (likelihood_L A stop tr grp 2)))
        ≤ 2 * val (likelihood_sum A stop tr grp) :=
      hR.add_le_double _ _ _ _ f1 fm fu f2 fn fs (by omega)
    exact hR.div_range _ _ fn fs (by omega) hle hs0

theorem gt_spec_in_range (A : FloatOps F) (val : F → Int) (fin : F → Bool)
    (hR : RangeLaws A val fin) (hA : SmallExact A) (ptr : List Word) (nret : Nat)
    (h2 : nret ≤ 2) (hlen : nret ≤ ptr.length) :
    in_range A val fin (gt_dosage_spec A (ptr.take nret)) := by
  obtain ⟨x, hx, hval⟩ := gt_sample_diploid A hA ptr nret h2 hlen
  have hspec := gt_sample_spec A ptr nret hlen
  rw [hx] at hspec
  rw [← Option.some.inj hspec]
  have h01 := hR.val_one
  rcases hval with h | h | h | h
  · exact Or.inl h
  · subst h
    exact Or.inr ⟨hR.fin_zero, by rw [hR.val_zero], by rw [hR.val_zero]; omega⟩
  · subst h
    exact Or.inr ⟨hR.fin_one, h01.1, h01.2⟩
  · subst h
    exact Or.inr ⟨hR.fin_two, by omega, Int.le_refl _⟩

theorem calc_dosage_PL_no_branch (A : FloatOps F) (acc : Accessor) (st : State) (rec : Rec)
    (hn : rec.n_sample ≠ 0) (h1 : st.pl_type ≠ BCF_HT_INT) (h2 : st.pl_type ≠ BCF_HT_REAL) :
    ∃ r, calc_dosage_PL A acc st rec = some r ∧ r.out = [] := by
  by_cases hneg : (acc.get_format_values st.in_hdr rec "PL" st.pl_type st.buf).1 < 0 <;>
    simp [calc_dosage_PL, hneg, hn, h1, h2]

theorem call_in_range (A : FloatOps F) (val : F → Int) (fin : F → Bool)
    (hR : RangeLaws A val fin) (hA : SmallExact A) (acc : Accessor) (st : State) (rec : Rec)
    (h : Handler)
    (hcond : 0 ≤ (h.result acc st rec).1 →
      0 < rec.n_sample
        ∧ (h.result acc st rec).1.toNat ≤ (h.result acc st rec).2.length
        ∧ (h = Handler.GT → (h.result acc st rec).1.toNat / rec.n_sample ≤ 2)
        ∧ (h ≠ Handler.GT →
            (h.result acc st rec).1.toNat / rec.n_sample ≤ 3
              ∧ ∀ k, k < rec.n_sample →
                  finite3 A val fin (stop_of_type st.pl_type) (h.transform A st.pl_type)
                    (group (h.result acc st rec).2
                      ((h.result acc st rec).1.toNat / rec.n_sample) k))) :
    ∃ r, h.call A acc st rec = some r ∧ ∀ x ∈ r.out, in_range A val fin x := by
  by_cases hneg : (h.result acc st rec).1 < 0
  · obtain ⟨b, hb⟩ := call_of_nret_neg A acc h st rec (by rw [nret_eq_result]; exact hneg)
    exact ⟨_, hb, by simp⟩
  · have hret : 0 ≤ (h.result acc st rec).1 := by omega
    obtain ⟨hn, hbuf, hGT, hL⟩ := hcond hret
    have hn0 : rec.n_sample ≠ 0 := by omega
    cases h
    · obtain ⟨h3, hfin⟩ := hL (by decide)
      by_cases hty : st.pl_type = BCF_HT_INT ∨ st.pl_type = BCF_HT_REAL
      · refine ⟨_, calc_dosage_PL_eq A acc st rec hn hty hret hbuf
          (fun i _ => takeWhile_group_le _ _ _ i h3), ?_⟩
        intro x hx
        simp only [List.mem_map, List.mem_range] at hx
        obtain ⟨i, hi, rfl⟩ := hx
        exact likelihood_spec_in_range A val fin hR _ _ _ (hfin i hi)
      · obtain ⟨r, hr, hout⟩ := calc_dosage_PL_no_branch A acc st rec hn0
          (fun e => hty (Or.inl e)) (fun e => hty (Or.inr e))
        exact ⟨r, hr, by simp [hout]⟩
    · obtain ⟨h3, hfin⟩ := hL (by decide)
      by_cases hty : st.pl_type = BCF_HT_INT ∨ st.pl_type = BCF_HT_REAL
      · refine ⟨_, calc_dosage_GL_eq A acc st rec hn hty hret hbuf
          (fun i _ => takeWhile_group_le _ _ _ i h3), ?_⟩
        intro x hx
        simp only [List.mem_map, List.mem_range] at hx
        obtain ⟨i, hi, rfl⟩ := hx
        exact likelihood_spec_in_range A val fin hR _ _ _ (hfin i hi)
      · obtain ⟨r, hr, hout⟩ := calc_dosage_GL_no_branch A acc st rec hn0
          (fun e => hty (Or.inl e)) (fun e => hty (Or.inr e))
        exact ⟨r, hr, by simp [hout]⟩
    · have h2 := hGT rfl
      refine ⟨_, calc_dosage_GT_eq A acc st rec hn hret hbuf, ?_⟩
      intro x hx
      simp only [List.mem_map, List.mem_range] at hx
      obtain ⟨i, hi, rfl⟩ := hx
      exact gt_spec_in_range A val fin hR hA _ _ h2
        (group_length _ rec.n_sample _ i (mul_div_le_length _ _ _ hbuf) hi)

theorem run_handlers_values (A : FloatOps F) (acc : Accessor) (hc : acc.Clean) (st : State)
    (rec : Rec) (P : F → Prop) :
    ∀ (hs : List Handler),
      (∀ h ∈ hs, ∃ r, h.call A acc st rec = some r ∧ ∀ x ∈ r.out, P x) →
      ∀ b : List Word, ∃ l, run_handlers A acc rec hs { st with buf := b } = some l
        ∧ ∀ x ∈ l.out, P x := by
  intro hs
  induction hs with
  | nil => intro _ b; exact ⟨_, rfl, by simp⟩
  | cons h hs ih =>
    intro hall b
    obtain ⟨r, hr, hP⟩ := hall h (List.mem_cons_self _ _)
    have hcl := call_clean A acc hc h st rec b st.buf
    have hself : ({ st with buf := st.buf } : State) = st := rfl
    rw [hself, hr] at hcl
    cases hb : h.call A acc { st with buf := b } rec with
    | none => rw [hb] at hcl; simp at hcl
    | some rb =>
      rw [hb] at hcl
      simp only [Option.map_some', Option.some.injEq, Prod.mk.injEq] at hcl
      obtain ⟨l, hl, hlP⟩ := ih (fun h2 hh2 => hall h2 (List.mem_cons_of_mem _ hh2)) rb.buf
      by_cases h0 : rb.ret = 0
      · have hrun : run_handlers A acc rec (h :: hs) { st with buf := b }
            = some ⟨true, rb.buf, rb.out, [h]⟩ := by
          simp only [run_handlers, hb, h0, if_true]
        refine ⟨_, hrun, ?_⟩
        intro x hx
        exact hP x (by rw [← hcl.2]; exact hx)
      · have hrun : run_handlers A acc rec (h :: hs) { st with buf := b }
            = some ⟨l.found, l.buf, rb.out ++ l.out, h :: l.called⟩ := by
          simp only [run_handlers, hb, h0, if_false, hl]
        refine ⟨_, hrun, ?_⟩
        intro x hx
        simp only [List.mem_append] at hx
        rcases hx with hx | hx
        · exact hP x (by rw [← hcl.2]; exact hx)
        · exact hlP x hx

/-- C14, amended. Let the arithmetic obey the order facts `RangeLaws` and the
exact facts `SmallExact`, let the accessor follow the buffer protocol of
htslib, and let the record be diploid for the registry with likelihood
computations that stay finite (`diploid_ok`: at most 2 genotype entries and at
most 3 likelihood values per sample, finite non-negative likelihoods, finite
sums). Then `process` emits a row, every dosage value of the row is the
sentinel `-1.0` or a finite number in `[0, 2]`, and a record with a single
allele gets `0.0` for every sample. -/
theorem dosage_in_range (A : FloatOps F) (val : F → Int) (fin : F → Bool) (acc : Accessor)
    (st : State) (rec : Rec) (hR : RangeLaws A val fin) (hA : SmallExact A) (hc : acc.Clean)
    (hd : diploid_ok A val fin acc st rec) :
    ∃ p, process A acc st rec = some p
      ∧ (∀ x ∈ p.row.dosages, in_range A val fin x)
      ∧ (rec.n_allele = 1 → p.row.dosages = List.replicate rec.n_sample A.zero) := by
  have h01 := hR.val_one
  by_cases h1 : rec.n_allele = 1
  · have hp : process A acc st rec = some ⟨1, st,
        ⟨rec.chrom, rec.pos + 1, rec.allele.getD 0 "", ".",
          List.replicate rec.n_sample A.zero⟩, []⟩ := by
      simp only [process, h1, if_true]
    refine ⟨_, hp, ?_, fun _ => rfl⟩
    intro x hx
    have hx0 : x = A.zero := List.eq_of_mem_replicate hx
    subst hx0
    exact Or.inr ⟨hR.fin_zero, by rw [hR.val_zero], by rw [hR.val_zero]; omega⟩
  · obtain ⟨l, hl, hlP⟩ := run_handlers_values A acc hc st rec (in_range A val fin) st.handlers
      (fun h hh => call_in_range A val fin hR hA acc st rec h (hd h hh)) st.buf
    have hself : ({ st with buf := st.buf } : State) = st := rfl
    rw [hself] at hl
    have hp : process A acc st rec = some ⟨1, { st with buf := l.buf },
        ⟨rec.chrom, rec.pos + 1, rec.allele.getD 0 "",
          if rec.n_allele > 1 then rec.allele.getD 1 "" else ".",
          l.out ++ (if l.found then [] else List.replicate rec.n_sample A.negOne)⟩,
        l.called⟩ := by
      simp only [process, h1, if_false, hl]
    refine ⟨_, hp, ?_, fun h => absurd h h1⟩
    intro x hx
    simp only [List.mem_append] at hx
    rcases hx with hx | hx
    · exact hlP x hx
    · by_cases hf : l.found = true
      · simp [hf] at hx
      · simp only [hf, if_false] at hx
        exact Or.inl (List.eq_of_mem_replicate hx)

theorem diploid_ok_example : diploid_ok milli_ext Ext.val Ext.isFin htslib st_std rec_pl2 := by
  unfold diploid_ok finite3
  decide

/-- C14 (amended) on a concrete input: the usual header and default tags, the
two-sample record with PL `0,0,0` and all missing. -/
theorem dosage_in_range_witness :
    ∃ p, process milli_ext htslib st_std rec_pl2 = some p
      ∧ (∀ x ∈ p.row.dosages, in_range milli_ext Ext.val Ext.isFin x)
      ∧ (rec_pl2.n_allele = 1 → p.row.dosages = List.replicate rec_pl2.n_sample milli_ext.zero) :=
  dosage_in_range milli_ext Ext.val Ext.isFin htslib st_std rec_pl2 milli_ext_range_laws
    milli_ext_small_exact htslib_clean diploid_ok_example

end Dosage
